import Mathlib

/-!
Verification of the NF-e extraction / accounting-classification core.

This file gives a shallow embedding, in Lean 4, of the parts of the
repository `ProjetoFinal_I2A2_ExtracaoDadosFiscais` that the frozen claims
C1..C10 are about:

* `src/domain/models.py` — the `Destinatario` and `ICMS` pydantic models
  with their normalizing field validators and mutual-exclusion model
  validators, and the `NFePayload` root model (projected to the fields the
  claims mention);
* `src/agents/classificador_contabil_agent.py` — the CFOP mapping store
  (`_load_cfop_map`, `upsert_cfop_mapping`, `_match_cfop_in_csv`), the
  fallback heuristic (`_fallback_por_prefixo`), the classifier
  (`classificar_contabil`) and `classificacao_from_human`;
* `src/workflow/nodes.py` — `human_review_node`.

Machine floats are embedded as exact rationals (`ℚ`): every numeric literal
and comparison the claims mention is an exactly representable decimal, and
Python's `float(str(x)) == x` round-trip is mirrored by an exact
parse/render round-trip proved below.  Python strings are Lean `String`s;
`str.strip`, `str.lower`, `str.isdigit` and friends are defined explicitly
on the character list so that their algebra is available to proofs.
-/

namespace NFe

/-! ## Python string primitives -/

/-- Characters of `cs` with leading and trailing whitespace removed; models
Python `str.strip()` (which strips Unicode whitespace; the repository only
ever strips ASCII whitespace). -/
def trimChars (cs : List Char) : List Char :=
  ((cs.dropWhile Char.isWhitespace).reverse.dropWhile Char.isWhitespace).reverse

/-- Python `s.strip()`. -/
def pyStrip (s : String) : String := ⟨trimChars s.data⟩

/-- Python `s.lower()` (the repository only lower-cases ASCII). -/
def pyLower (s : String) : String := ⟨s.data.map Char.toLower⟩

/-- Python `s.isdigit()`: nonempty and all characters are digits. -/
def pyIsDigit (s : String) : Bool := s.data.all Char.isDigit && !s.data.isEmpty

/-- Python `"".join(filter(str.isdigit, s))`. -/
def digitsOf (s : String) : String := ⟨s.data.filter Char.isDigit⟩

/-- Python `s.startswith(c)` for a single-character pattern `c`. -/
def startsWithChar (s : String) (c : Char) : Bool :=
  match s.data with
  | [] => false
  | a :: _ => a == c

/-- Python `x or d` for an optional string `x` (both `None` and `""` are
falsy and select the default). -/
def pyOrElse (o : Option String) (d : String) : String :=
  match o with
  | none => d
  | some s => if s = "" then d else s

/-- Python truthiness of an optional string (`None` and `""` are falsy). -/
def optTruthy (o : Option String) : Bool :=
  match o with
  | none => false
  | some s => s != ""

/-! ## Exact embedding of Python `float` parsing and printing

`pyFloat?` models `float(s)` on plain decimal literals (optional sign,
digits, at most one decimal point) — the only shapes the repository feeds
it; on anything else (where CPython would raise `ValueError`) it returns
`none`.  `pyStrOfFloat` models `str(x)` for a float `x`: it produces a
decimal literal that parses back to exactly the same value, which is the
only property of `str`/`float` the code under verification relies on. -/

/-- Value of a big-endian list of decimal digit characters. -/
def digitsToNat (cs : List Char) : Nat :=
  cs.foldl (fun a c => a * 10 + (c.toNat - 48)) 0

/-- Parse an unsigned decimal literal: `123`, `1.5`, `.5`, `5.`. -/
def parseUnsignedDec (cs : List Char) : Option ℚ :=
  match cs.dropWhile Char.isDigit with
  | [] =>
      if (cs.takeWhile Char.isDigit).isEmpty then none
      else some ((digitsToNat (cs.takeWhile Char.isDigit) : ℚ))
  | '.' :: fr =>
      if fr.all Char.isDigit && (!(cs.takeWhile Char.isDigit).isEmpty || !fr.isEmpty) then
        some (mkRat (digitsToNat (cs.takeWhile Char.isDigit) * 10 ^ fr.length + digitsToNat fr)
          (10 ^ fr.length))
      else none
  | _ => none

/-- The value `parseUnsignedDec` builds is the usual integer-plus-fraction
decomposition. -/
theorem mkRat_decimal (a b L : ℕ) :
    (mkRat (a * 10 ^ L + b) (10 ^ L) : ℚ) = (a : ℚ) + (b : ℚ) / 10 ^ L := by
  have h10 : ((10 : ℚ) ^ L) ≠ 0 := by positivity
  rw [Rat.mkRat_eq_div]
  push_cast
  field_simp

/-- `pyFloat?` on the underlying character list. -/
def pyFloatChars (l : List Char) : Option ℚ :=
  match trimChars l with
  | [] => none
  | c :: cs =>
      if c = '+' then parseUnsignedDec cs
      else if c = '-' then (parseUnsignedDec cs).map Neg.neg
      else parseUnsignedDec (c :: cs)

/-- Python `float(s)` restricted to plain decimal literals (`none` where
CPython raises `ValueError`). -/
def pyFloat? (s : String) : Option ℚ :=
  pyFloatChars s.data

/-- Little-endian decimal digit characters by fuel recursion (structural,
so the kernel can evaluate it; equal to `Nat.digits` by
`natDigitsAux_eq`). -/
def natDigitsAux : ℕ → ℕ → List Char
  | 0, _ => []
  | _ + 1, 0 => []
  | fuel + 1, n + 1 => Nat.digitChar ((n + 1) % 10) :: natDigitsAux fuel ((n + 1) / 10)

/-- Big-endian decimal digit characters of `n` (`"0"` for `0`). -/
def natDigitChars (n : Nat) : List Char :=
  if n = 0 then ['0'] else (natDigitsAux n n).reverse

/-- Decimal string of a natural number. -/
def natStr (n : Nat) : String := ⟨natDigitChars n⟩

/-- Left-pad with `'0'` up to length `k`. -/
def padLeftZeros (k : Nat) (cs : List Char) : List Char :=
  List.replicate (k - cs.length) '0' ++ cs

/-- Python `str(x)` for a float `x`, embedded exactly: renders `q` as a
signed decimal literal with `q.den` fractional digits whenever `q` is a
decimal-valued rational (every value produced by `pyFloat?` is).  Like
CPython it always prints at least one fractional digit (`str(1.0) = "1.0"`);
unlike CPython it may print trailing zeros, which is invisible to the code
under verification since the string is only ever parsed back by `float`. -/
def pyStrOfFloat (q : ℚ) : String :=
  if (mkRat (q.num * 10 ^ q.den) q.den).den = 1 then
    (if (mkRat (q.num * 10 ^ q.den) q.den).num < 0 then "-" else "") ++
      natStr ((mkRat (q.num * 10 ^ q.den) q.den).num.natAbs / 10 ^ q.den) ++ "." ++
      ⟨padLeftZeros q.den
        (natDigitChars ((mkRat (q.num * 10 ^ q.den) q.den).num.natAbs % 10 ^ q.den))⟩
  else
    natStr q.num.natAbs ++ "/" ++ natStr q.den

/-- Python `f"{q:.2f}"` on the exact rational embedding (round half up; the
repository only ever formats values where ties cannot occur, and no claim
inspects a tie). -/
def format2 (q : ℚ) : String :=
  (if (200 * q.num + q.den) / (2 * q.den) < 0 then "-" else "") ++
    natStr (((200 * q.num + q.den) / (2 * q.den) : ℤ).natAbs / 100) ++ "." ++
    ⟨padLeftZeros 2 (natDigitChars (((200 * q.num + q.den) / (2 * q.den) : ℤ).natAbs % 100))⟩

/-! ## Round-trip lemmas for the exact float embedding -/

theorem natDigitsAux_eq (fuel n : ℕ) (h : n ≤ fuel) :
    natDigitsAux fuel n = (Nat.digits 10 n).map Nat.digitChar := by
  induction fuel generalizing n with
  | zero =>
      interval_cases n
      show ([] : List Char) = _
      simp [Nat.digits_zero]
  | succ f ih =>
      cases n with
      | zero =>
          show ([] : List Char) = _
          simp [Nat.digits_zero]
      | succ p =>
          show Nat.digitChar ((p + 1) % 10) :: natDigitsAux f ((p + 1) / 10) = _
          rw [Nat.digits_def' (by norm_num : 1 < 10) (Nat.succ_pos p)]
          simp only [List.map_cons]
          congr 1
          refine ih _ ?_
          have := Nat.div_lt_self (Nat.succ_pos p) (by norm_num : 1 < 10)
          omega

theorem natDigitChars_eq (n : ℕ) :
    natDigitChars n =
      if n = 0 then ['0'] else ((Nat.digits 10 n).map Nat.digitChar).reverse := by
  unfold natDigitChars
  by_cases h : n = 0
  · rw [if_pos h, if_pos h]
  · rw [if_neg h, if_neg h, natDigitsAux_eq n n le_rfl]

theorem digitsToNat_append (cs : List Char) (c : Char) :
    digitsToNat (cs ++ [c]) = digitsToNat cs * 10 + (c.toNat - 48) := by
  simp [digitsToNat, List.foldl_append]

theorem digitChar_toNat_sub (d : ℕ) (h : d < 10) : (Nat.digitChar d).toNat - 48 = d := by
  interval_cases d <;> rfl

theorem digitChar_isDigit (d : ℕ) (h : d < 10) : (Nat.digitChar d).isDigit = true := by
  interval_cases d <;> rfl

theorem digitsToNat_rev_map (ds : List ℕ) (h : ∀ d ∈ ds, d < 10) :
    digitsToNat ((ds.map Nat.digitChar).reverse) = Nat.ofDigits 10 ds := by
  induction ds with
  | nil => rfl
  | cons d t ih =>
      have hd : d < 10 := h d (by simp)
      have ht : ∀ x ∈ t, x < 10 := fun x hx => h x (by simp [hx])
      simp only [List.map_cons, List.reverse_cons, digitsToNat_append, ih ht, Nat.ofDigits_cons]
      rw [digitChar_toNat_sub d hd]
      ring

theorem digitsToNat_natDigitChars (n : ℕ) : digitsToNat (natDigitChars n) = n := by
  by_cases h : n = 0
  · subst h; rfl
  · rw [natDigitChars_eq, if_neg h,
      digitsToNat_rev_map _ (fun d hd => Nat.digits_lt_base (by norm_num) hd),
      Nat.ofDigits_digits]

theorem natDigitChars_all_digit (n : ℕ) : ∀ c ∈ natDigitChars n, c.isDigit = true := by
  intro c hc
  by_cases h : n = 0
  · subst h; simp only [natDigitChars, if_pos rfl] at hc
    simp at hc; subst hc; rfl
  · rw [natDigitChars_eq, if_neg h] at hc
    rw [List.mem_reverse, List.mem_map] at hc
    obtain ⟨d, hd, rfl⟩ := hc
    exact digitChar_isDigit d (Nat.digits_lt_base (by norm_num) hd)

theorem natDigitChars_ne_nil (n : ℕ) : natDigitChars n ≠ [] := by
  by_cases h : n = 0
  · subst h; simp [natDigitChars]
  · rw [natDigitChars_eq, if_neg h]
    simp [Nat.digits_ne_nil_iff_ne_zero.mpr h]

theorem digitsToNat_replicate_zero (m : ℕ) (cs : List Char) :
    digitsToNat (List.replicate m '0' ++ cs) = digitsToNat cs := by
  have hz : ∀ m, (List.replicate m '0').foldl (fun a c => a * 10 + (c.toNat - 48)) 0 = 0 := by
    intro m
    induction m with
    | zero => rfl
    | succ m ih => simpa [List.replicate_succ] using ih
  simp [digitsToNat, List.foldl_append, hz]

theorem digitsToNat_padLeftZeros (k : ℕ) (cs : List Char) :
    digitsToNat (padLeftZeros k cs) = digitsToNat cs :=
  digitsToNat_replicate_zero _ _

theorem length_natDigitChars_le (n k : ℕ) (hk : 1 ≤ k) (h : n < 10 ^ k) :
    (natDigitChars n).length ≤ k := by
  by_cases h0 : n = 0
  · subst h0; simpa [natDigitChars] using hk
  · rw [natDigitChars_eq, if_neg h0]
    simp only [List.length_reverse, List.length_map]
    have h1 : 10 ^ (Nat.digits 10 n).length ≤ 10 * n :=
      Nat.base_pow_length_digits_le 10 n (by norm_num) h0
    have h2 : 10 ^ (Nat.digits 10 n).length < 10 ^ (k + 1) := by
      calc 10 ^ (Nat.digits 10 n).length ≤ 10 * n := h1
        _ < 10 * 10 ^ k := by omega
        _ = 10 ^ (k + 1) := by ring
    have := (Nat.pow_lt_pow_iff_right (by norm_num : 1 < 10)).mp h2
    omega

theorem length_padLeftZeros (k : ℕ) (cs : List Char) (h : cs.length ≤ k) :
    (padLeftZeros k cs).length = k := by
  simp [padLeftZeros]
  omega

theorem takeWhile_append_all (p : Char → Bool) (l r : List Char) (h : ∀ c ∈ l, p c = true) :
    (l ++ r).takeWhile p = l ++ r.takeWhile p := by
  induction l with
  | nil => simp
  | cons a t ih =>
      simp only [List.cons_append, List.takeWhile_cons, h a (by simp), if_true]
      exact congrArg (a :: ·) (ih fun c hc => h c (by simp [hc]))

theorem dropWhile_append_all (p : Char → Bool) (l r : List Char) (h : ∀ c ∈ l, p c = true) :
    (l ++ r).dropWhile p = r.dropWhile p := by
  induction l with
  | nil => simp
  | cons a t ih =>
      simp only [List.cons_append, List.dropWhile_cons, h a (by simp), if_true]
      exact ih fun c hc => h c (by simp [hc])

theorem dropWhile_eq_self_of_all_not (p : Char → Bool) (l : List Char)
    (h : ∀ c ∈ l, p c = false) : l.dropWhile p = l := by
  cases l with
  | nil => rfl
  | cons a t => simp [List.dropWhile_cons, h a (by simp)]

theorem trimChars_eq_self (cs : List Char) (h : ∀ c ∈ cs, c.isWhitespace = false) :
    trimChars cs = cs := by
  unfold trimChars
  rw [dropWhile_eq_self_of_all_not _ _ h,
    dropWhile_eq_self_of_all_not _ _ (fun c hc => h c (by simpa using hc)),
    List.reverse_reverse]

theorem isDigit_not_ws (c : Char) (h : c.isDigit = true) : c.isWhitespace = false := by
  by_contra hw
  have hw' : c.isWhitespace = true := by simpa using hw
  have hcases : ((c = ' ' ∨ c = '\t') ∨ c = '\x0d') ∨ c = '\n' := by
    simpa [Char.isWhitespace, decide_eq_true_eq] using hw'
  rcases hcases with ((rfl | rfl) | rfl) | rfl <;> simp_all

theorem isDigit_ne_plus (c : Char) (h : c.isDigit = true) : c ≠ '+' := by
  rintro rfl; exact absurd h (by decide)

theorem isDigit_ne_minus (c : Char) (h : c.isDigit = true) : c ≠ '-' := by
  rintro rfl; exact absurd h (by decide)

theorem parseUnsignedDec_render (ip fr : List Char) (hip : ∀ c ∈ ip, c.isDigit = true)
    (hfr : ∀ c ∈ fr, c.isDigit = true) (hne : ip ≠ []) :
    parseUnsignedDec (ip ++ '.' :: fr) =
      some (mkRat (digitsToNat ip * 10 ^ fr.length + digitsToNat fr) (10 ^ fr.length)) := by
  unfold parseUnsignedDec
  rw [takeWhile_append_all _ _ _ hip, dropWhile_append_all _ _ _ hip]
  have hdot : Char.isDigit '.' = false := rfl
  simp only [List.takeWhile_cons, hdot, Bool.false_eq_true, if_false, List.append_nil,
    List.dropWhile_cons]
  have hall : fr.all Char.isDigit = true := List.all_eq_true.mpr hfr
  have hipE : ip.isEmpty = false := by
    cases ip with
    | nil => exact absurd rfl hne
    | cons a t => rfl
  simp [hall, hipE]

theorem pyFloatChars_render (ip fr : List Char) (hip : ∀ c ∈ ip, c.isDigit = true)
    (hfr : ∀ c ∈ fr, c.isDigit = true) (hne : ip ≠ []) :
    pyFloatChars (ip ++ '.' :: fr) =
      some ((digitsToNat ip : ℚ) + (digitsToNat fr : ℚ) / 10 ^ fr.length) := by
  have hnw : ∀ c ∈ ip ++ '.' :: fr, c.isWhitespace = false := by
    intro c hc
    rcases List.mem_append.mp hc with h1 | h2
    · exact isDigit_not_ws c (hip c h1)
    · rcases List.mem_cons.mp h2 with rfl | h3
      · rfl
      · exact isDigit_not_ws c (hfr c h3)
  unfold pyFloatChars
  cases hip' : ip with
  | nil => exact absurd hip' hne
  | cons a t =>
      subst hip'
      have ha : a.isDigit = true := hip a (by simp)
      have htrim : trimChars ((a :: t) ++ '.' :: fr) = (a :: t) ++ '.' :: fr :=
        trimChars_eq_self _ hnw
      rw [htrim]
      show (if a = '+' then parseUnsignedDec (t ++ '.' :: fr)
        else if a = '-' then Option.map Neg.neg (parseUnsignedDec (t ++ '.' :: fr))
        else parseUnsignedDec (a :: (t ++ '.' :: fr))) = _
      rw [if_neg (isDigit_ne_plus a ha), if_neg (isDigit_ne_minus a ha), ← List.cons_append,
        parseUnsignedDec_render _ _ hip hfr (by simp), mkRat_decimal]

theorem prime_dvd_ten (p : ℕ) (hp : p.Prime) (h : p ∣ 10) : p = 2 ∨ p = 5 := by
  have h2 := hp.two_le
  have h10 := Nat.le_of_dvd (by norm_num) h
  interval_cases p <;> revert h hp <;> decide

theorem dvd_ten_pow_self (k : ℕ) : ∀ d, 0 < d → d ∣ 10 ^ k → d ∣ 10 ^ d := by
  intro d
  induction d using Nat.strong_induction_on with
  | _ d ih =>
    intro hd hdvd
    rcases eq_or_ne d 1 with rfl | hne
    · exact one_dvd _
    · obtain ⟨p, hp, hpd⟩ := Nat.exists_prime_and_dvd hne
      obtain ⟨e, rfl⟩ := hpd
      have hp2 := hp.two_le
      have he : 0 < e := by
        rcases Nat.eq_zero_or_pos e with rfl | he
        · simp at hd
        · exact he
      have hp10 : p ∣ 10 := hp.dvd_of_dvd_pow (dvd_trans (Dvd.intro e rfl) hdvd)
      have hek : e ∣ 10 ^ k := dvd_trans (Dvd.intro_left p rfl) hdvd
      have hlt : e < p * e := by nlinarith
      have ihe : e ∣ 10 ^ e := ih e hlt he hek
      have h1 : p * e ∣ 10 ^ (e + 1) := by
        have : (10 : ℕ) ^ (e + 1) = 10 * 10 ^ e := by ring
        rw [this]
        exact mul_dvd_mul hp10 ihe
      exact dvd_trans h1 (pow_dvd_pow 10 (by nlinarith))

theorem den_dvd_ten_pow (q : ℚ) (hq : 0 ≤ q) (n k : ℕ) (h : q = (n : ℚ) / 10 ^ k) :
    q.den ∣ 10 ^ k := by
  have hden : (q.den : ℚ) ≠ 0 := by
    exact_mod_cast q.den_pos.ne'
  have hnum : (q.num : ℚ) = q * q.den := (div_eq_iff hden).mp (Rat.num_div_den q)
  have hpow : ((10 : ℚ) ^ k) ≠ 0 := by positivity
  have hZ : (q.num : ℚ) * 10 ^ k = (n : ℚ) * q.den := by
    rw [hnum, h]
    field_simp
  have hZ' : q.num * (10 ^ k : ℤ) = (n : ℤ) * (q.den : ℤ) := by exact_mod_cast hZ
  have hnn : 0 ≤ q.num := Rat.num_nonneg.mpr hq
  have hN : q.num.natAbs * 10 ^ k = n * q.den := by
    have := congrArg Int.natAbs hZ'
    simpa [Int.natAbs_mul, Int.natAbs_pow] using this
  have hdvd : q.den ∣ q.num.natAbs * 10 ^ k := by
    rw [hN]; exact Dvd.intro_left n rfl
  have hcop : Nat.Coprime q.den q.num.natAbs := (q.reduced).symm
  exact hcop.dvd_of_dvd_mul_left hdvd

theorem scaled_int (q : ℚ) (hq : 0 ≤ q) (n k : ℕ) (h : q = (n : ℚ) / 10 ^ k) :
    q * 10 ^ q.den = ((q.num * ((10 ^ q.den / q.den : ℕ) : ℤ) : ℤ) : ℚ) := by
  have hdvd : q.den ∣ 10 ^ q.den :=
    dvd_ten_pow_self k q.den q.den_pos (den_dvd_ten_pow q hq n k h)
  have hden : (q.den : ℚ) ≠ 0 := by exact_mod_cast q.den_pos.ne'
  have hcast : ((10 ^ q.den / q.den : ℕ) : ℚ) = (10 : ℚ) ^ q.den / (q.den : ℚ) := by
    rw [Nat.cast_div hdvd hden]
    push_cast
    ring
  have hnum : (q.num : ℚ) = q * q.den := (div_eq_iff hden).mp (Rat.num_div_den q)
  have expand : ((q.num * ((10 ^ q.den / q.den : ℕ) : ℤ) : ℤ) : ℚ)
      = (q.num : ℚ) * ((10 ^ q.den / q.den : ℕ) : ℚ) := by
    rw [Int.cast_mul, Int.cast_natCast]
  rw [expand, hcast]
  field_simp
  rw [hnum]
  ring

theorem pyFloat_pyStrOfFloat (q : ℚ) (hq : 0 ≤ q) (n k : ℕ) (h : q = (n : ℚ) / 10 ^ k) :
    pyFloat? (pyStrOfFloat q) = some q := by
  have hKpos : 0 < q.den := q.den_pos
  have hscaled := scaled_int q hq n k h
  set m : ℤ := q.num * ((10 ^ q.den / q.den : ℕ) : ℤ) with hm
  have hMq : (mkRat (q.num * 10 ^ q.den) q.den : ℚ) = q * 10 ^ q.den := by
    have hden : (q.den : ℚ) ≠ 0 := by exact_mod_cast q.den_pos.ne'
    have hnum' : (q.num : ℚ) = q * q.den := (div_eq_iff hden).mp (Rat.num_div_den q)
    rw [Rat.mkRat_eq_div]
    push_cast
    rw [div_eq_iff hden, hnum']
    ring
  have hden1 : (mkRat (q.num * 10 ^ q.den) q.den).den = 1 := by
    rw [hMq, hscaled]; exact Rat.den_intCast m
  have hnum : (mkRat (q.num * 10 ^ q.den) q.den).num = m := by
    rw [hMq, hscaled]; exact Rat.num_intCast m
  have hmnn : 0 ≤ m := by
    have : (0 : ℚ) ≤ q * 10 ^ q.den := by positivity
    rw [hscaled] at this
    exact_mod_cast this
  have hmq : (m.natAbs : ℚ) = q * 10 ^ q.den := by
    rw [hscaled, Int.cast_natAbs]
    exact congrArg (fun z : ℤ => (z : ℚ)) (abs_of_nonneg hmnn)
  have hstr : pyStrOfFloat q =
      ⟨natDigitChars (m.natAbs / 10 ^ q.den) ++
        '.' :: padLeftZeros q.den (natDigitChars (m.natAbs % 10 ^ q.den))⟩ := by
    unfold pyStrOfFloat
    rw [if_pos hden1, hnum, if_neg (show ¬ m < 0 by omega)]
    apply String.ext
    simp [natStr, String.data_append]
  rw [hstr]
  set ip := natDigitChars (m.natAbs / 10 ^ q.den) with hipd
  set fr := padLeftZeros q.den (natDigitChars (m.natAbs % 10 ^ q.den)) with hfrd
  have hfrdig : ∀ c ∈ fr, c.isDigit = true := by
    intro c hc
    rw [hfrd, padLeftZeros] at hc
    rcases List.mem_append.mp hc with h1 | h2
    · rw [List.eq_of_mem_replicate h1]; rfl
    · exact natDigitChars_all_digit _ c h2
  have hfrlen : fr.length = q.den := by
    rw [hfrd]
    refine length_padLeftZeros _ _ ?_
    exact length_natDigitChars_le _ _ hKpos (Nat.mod_lt _ (by positivity))
  have hparse := pyFloatChars_render ip fr (natDigitChars_all_digit _) hfrdig (natDigitChars_ne_nil _)
  rw [pyFloat?, hparse, hipd, hfrd]
  congr 1
  rw [digitsToNat_natDigitChars, digitsToNat_padLeftZeros, digitsToNat_natDigitChars, hfrlen]
  have hab : (m.natAbs / 10 ^ q.den) * 10 ^ q.den + m.natAbs % 10 ^ q.den = m.natAbs :=
    Nat.div_add_mod' _ _
  have hpow : ((10 : ℚ) ^ q.den) ≠ 0 := by positivity
  field_simp
  calc ((m.natAbs / 10 ^ q.den : ℕ) : ℚ) * 10 ^ q.den + ((m.natAbs % 10 ^ q.den : ℕ) : ℚ)
      = (((m.natAbs / 10 ^ q.den) * 10 ^ q.den + m.natAbs % 10 ^ q.den : ℕ) : ℚ) := by push_cast; ring
    _ = (m.natAbs : ℚ) := by rw [hab]
    _ = q * 10 ^ q.den := hmq

/-- Every nonnegative value `pyFloat?` can produce is a decimal-valued
rational `n / 10 ^ k`. -/
theorem parseUnsignedDec_shape (cs : List Char) (q : ℚ) (h : parseUnsignedDec cs = some q) :
    ∃ n k : ℕ, q = (n : ℚ) / 10 ^ k := by
  unfold parseUnsignedDec at h
  split at h
  · split at h
    · exact absurd h (by simp)
    · refine ⟨digitsToNat (cs.takeWhile Char.isDigit), 0, ?_⟩
      simp only [Option.some.injEq] at h
      simp [← h]
  · rename_i fr heq
    split at h
    · simp only [Option.some.injEq] at h
      refine ⟨digitsToNat (cs.takeWhile Char.isDigit) * 10 ^ fr.length + digitsToNat fr,
        fr.length, ?_⟩
      rw [← h, Rat.mkRat_eq_div]
      push_cast
      ring
    · exact absurd h (by simp)
  · exact absurd h (by simp)

theorem pyFloat?_shape (s : String) (q : ℚ) (hq : 0 ≤ q) (h : pyFloat? s = some q) :
    ∃ n k : ℕ, q = (n : ℚ) / 10 ^ k := by
  rw [pyFloat?] at h
  unfold pyFloatChars at h
  split at h
  · exact absurd h (by simp)
  · split at h
    · exact parseUnsignedDec_shape _ _ h
    · split at h
      · rw [Option.map_eq_some'] at h
        obtain ⟨q', hq', rfl⟩ := h
        obtain ⟨n, k, hnk⟩ := parseUnsignedDec_shape _ _ hq'
        have h0 : q' = 0 := by
          have h1 : 0 ≤ q' := by rw [hnk]; positivity
          have h2 : q' ≤ 0 := by linarith [neg_nonneg.mp hq]
          linarith
        exact ⟨0, 0, by simp [h0]⟩
      · exact parseUnsignedDec_shape _ _ h

/-- The `float(str(x)) == x` round trip, for any nonnegative value obtained
from `pyFloat?` (CPython guarantees the analogous round trip for doubles). -/
theorem pyFloat_roundTrip (s : String) (q : ℚ) (h : pyFloat? s = some q) (hq : 0 ≤ q) :
    pyFloat? (pyStrOfFloat q) = some q := by
  obtain ⟨n, k, hnk⟩ := pyFloat?_shape s q hq h
  exact pyFloat_pyStrOfFloat q hq n k hnk

/-! ## Domain model (`src/domain/models.py`) -/

/-- Brazilian state codes (`UfEnum`, models.py lines 27-31). -/
inductive Uf where
  | AC | AL | AP | AM | BA | CE | DF | ES | GO | MA | MT | MS | MG | PA
  | PB | PR | PE | PI | RJ | RN | RS | RO | RR | SC | SP | SE | TO
  deriving DecidableEq, Repr

/-- `Destinatario._normalize_cnpj` (models.py lines 143-153): `None`/empty
becomes `None`; otherwise strip non-digits and keep the result only when it
has exactly 14 digits, else `None`. -/
def destNormCnpj : Option String → Option String
  | none => none
  | some s =>
      if s = "" then none
      else if (digitsOf s).length = 14 then some (digitsOf s) else none

/-- `Destinatario._normalize_cpf` (models.py lines 155-165): like
`destNormCnpj` with 11 digits. -/
def destNormCpf : Option String → Option String
  | none => none
  | some s =>
      if s = "" then none
      else if (digitsOf s).length = 11 then some (digitsOf s) else none

/-- `Destinatario` (models.py lines 107-213), projected to the fields that
participate in the claims and in classification; the optional
address/registration fields have independent per-field normalizers and no
interaction with validation success. -/
structure Destinatario where
  razao_social : String
  cnpj : Option String
  cpf : Option String
  uf : Uf
  deriving DecidableEq, Repr

/-- Pydantic construction of `Destinatario`: the before-mode field
validators normalize `cnpj`/`cpf` (after which the `^\d{14}$` / `^\d{11}$`
patterns cannot fail, since a non-`None` normalized value is exactly 14/11
digits), `razao_social` must satisfy `min_length=1`, then the after-mode
model validator `validate_cpf_or_cnpj` (lines 134-141) enforces the
exactly-one rule. -/
def mkDestinatario (razao : String) (cnpjIn cpfIn : Option String) (uf : Uf) :
    Except String Destinatario :=
  if razao.length < 1 then
    .error "razao_social: String should have at least 1 character"
  else if destNormCpf cpfIn = none ∧ destNormCnpj cnpjIn = none then
    .error "Destinatario deve ter CPF ou CNPJ"
  else if destNormCpf cpfIn ≠ none ∧ destNormCnpj cnpjIn ≠ none then
    .error "Destinatario nao pode ter CPF e CNPJ simultaneamente"
  else
    .ok { razao_social := razao, cnpj := destNormCnpj cnpjIn,
          cpf := destNormCpf cpfIn, uf := uf }

/-- `ICMS` (models.py lines 283-324), projected to the `cst`/`csosn` fields
that the mutual-exclusion validator reads (the numeric fields are optional,
independently normalized, and cannot affect which of the claims' outcomes
occurs). -/
structure ICMS where
  cst : Option String
  csosn : Option String
  deriving DecidableEq, Repr

/-- Pydantic `pattern=r"^\d{n}$"` check on an optional string field. -/
def optPat (o : Option String) (n : ℕ) : Bool :=
  match o with
  | none => true
  | some s => s.data.all Char.isDigit && s.length = n

/-- Pydantic construction of `ICMS`: pattern checks on `cst` (2 digits) and
`csosn` (3 digits), then the model validator `validate_cst_or_csosn`
(lines 307-314). -/
def mkICMS (cst csosn : Option String) : Except String ICMS :=
  if ¬ optPat cst 2 then .error "cst: String should match pattern"
  else if ¬ optPat csosn 3 then .error "csosn: String should match pattern"
  else if cst = none ∧ csosn = none then .error "ICMS deve ter CST ou CSOSN"
  else if cst ≠ none ∧ csosn ≠ none then
    .error "ICMS nao pode ter CST e CSOSN simultaneamente"
  else .ok { cst := cst, csosn := csosn }

/-- `Emitente`, projected to the fields used downstream. -/
structure Emitente where
  razao_social : String
  cnpj : String
  uf : Uf
  deriving DecidableEq, Repr

/-- `NFeItem`, projected to the fields used downstream (`ncm` is the only
item field the classifier reads). -/
structure NFeItem where
  descricao : String
  ncm : Option String
  valor : ℚ
  deriving DecidableEq, Repr

/-- `NFePayload` (models.py lines 443-487), projected to the fields the
classifier and the workflow read. -/
structure NFePayload where
  cfop : String
  emitente : Emitente
  destinatario : Destinatario
  valor_total : ℚ
  itens : List NFeItem
  deriving DecidableEq, Repr

/-- Structural validity of an `NFePayload` as enforced by its pydantic
model: `cfop` matches `^\d{4}$` (after digit-stripping normalization),
`valor_total ≥ 0` and at least one item. -/
def validPayload (p : NFePayload) : Prop :=
  p.cfop.length = 4 ∧ pyIsDigit p.cfop = true ∧ 0 ≤ p.valor_total ∧ p.itens ≠ []

theorem length_pos_of_ne_empty (s : String) (h : s ≠ "") : 1 ≤ s.length := by
  rcases s with ⟨l⟩
  cases l with
  | nil => exact absurd rfl h
  | cons a t => simp [String.length]

/-- Claim C2: constructing a `Destinatario` succeeds only if exactly one of
{14-digit CNPJ, 11-digit CPF} is present after normalization; construction
with both present fails validation, construction with neither present fails
validation, and every successfully constructed value has exactly one of the
two set. -/
theorem claim_C2 (razao : String) (cnpjIn cpfIn : Option String) (uf : Uf) :
    (∀ d, mkDestinatario razao cnpjIn cpfIn uf = .ok d →
        (d.cnpj.isSome = true ∧ d.cpf = none) ∨ (d.cnpj = none ∧ d.cpf.isSome = true))
    ∧ ((destNormCnpj cnpjIn).isSome = true → (destNormCpf cpfIn).isSome = true →
        ∃ e, mkDestinatario razao cnpjIn cpfIn uf = .error e)
    ∧ (destNormCnpj cnpjIn = none → destNormCpf cpfIn = none →
        ∃ e, mkDestinatario razao cnpjIn cpfIn uf = .error e) := by
  refine ⟨?_, ?_, ?_⟩
  · intro d hd
    unfold mkDestinatario at hd
    cases hcn : destNormCnpj cnpjIn <;> cases hcp : destNormCpf cpfIn <;>
        rw [hcn, hcp] at hd <;> (repeat' split at hd) <;>
      first
        | exact Except.noConfusion hd
        | (simp only [Except.ok.injEq] at hd; subst hd; simp; done)
        | simp_all
  · intro h1 h2
    obtain ⟨a, ha⟩ := Option.isSome_iff_exists.mp h1
    obtain ⟨b, hb⟩ := Option.isSome_iff_exists.mp h2
    unfold mkDestinatario
    rw [ha, hb]
    by_cases hr : razao.length < 1
    · rw [if_pos hr]; exact ⟨_, rfl⟩
    · rw [if_neg hr, if_neg (by simp), if_pos (by simp)]
      exact ⟨_, rfl⟩
  · intro h1 h2
    unfold mkDestinatario
    rw [h1, h2]
    by_cases hr : razao.length < 1
    · rw [if_pos hr]; exact ⟨_, rfl⟩
    · rw [if_neg hr, if_pos ⟨rfl, rfl⟩]; exact ⟨_, rfl⟩

/-- Claim C9: constructing the `ICMS` sub-structure succeeds only if exactly
one of {CST, CSOSN} is present: both present fails, neither present fails,
and every successfully constructed `ICMS` has exactly one of the two set. -/
theorem claim_C9 (cst csosn : Option String) :
    (∀ x, mkICMS cst csosn = .ok x →
        (x.cst.isSome = true ∧ x.csosn = none) ∨ (x.cst = none ∧ x.csosn.isSome = true))
    ∧ (cst.isSome = true → csosn.isSome = true → ∃ e, mkICMS cst csosn = .error e)
    ∧ (cst = none → csosn = none → ∃ e, mkICMS cst csosn = .error e) := by
  refine ⟨?_, ?_, ?_⟩
  · intro x hx
    unfold mkICMS at hx
    cases cst <;> cases csosn <;> (repeat' split at hx) <;>
      first
        | exact Except.noConfusion hx
        | (simp only [Except.ok.injEq] at hx; subst hx; simp; done)
        | simp_all
  · intro h1 h2
    obtain ⟨a, ha⟩ := Option.isSome_iff_exists.mp h1
    obtain ⟨b, hb⟩ := Option.isSome_iff_exists.mp h2
    subst ha; subst hb
    unfold mkICMS
    by_cases p2 : optPat (some a) 2 = true
    · by_cases p3 : optPat (some b) 3 = true
      · rw [if_neg (by simp [p2]), if_neg (by simp [p3]), if_neg (by simp), if_pos (by simp)]
        exact ⟨_, rfl⟩
      · rw [if_neg (by simp [p2]), if_pos (by simp [p3])]
        exact ⟨_, rfl⟩
    · rw [if_pos (by simp [p2])]
      exact ⟨_, rfl⟩
  · intro h1 h2
    subst h1; subst h2
    exact ⟨"ICMS deve ter CST ou CSOSN", rfl⟩

/-- Claim C10: recipient identity normalization silently discards ill-sized
IDs: a CNPJ input whose digit count is not 14 (resp. a CPF input whose
digit count is not 11) normalizes to `None` with no per-field error;
consequently a recipient with only a malformed CNPJ fails with the
"deve ter CPF ou CNPJ" error, while a valid CPF plus a malformed CNPJ
constructs successfully with `cnpj = None`. -/
theorem claim_C10 (s t razao : String) (uf : Uf) :
    ((digitsOf s).length ≠ 14 → destNormCnpj (some s) = none)
    ∧ ((digitsOf t).length ≠ 11 → destNormCpf (some t) = none)
    ∧ ((digitsOf s).length ≠ 14 → razao ≠ "" →
        mkDestinatario razao (some s) none uf = .error "Destinatario deve ter CPF ou CNPJ")
    ∧ ((digitsOf s).length ≠ 14 → (digitsOf t).length = 11 → razao ≠ "" →
        ∃ d, mkDestinatario razao (some s) (some t) uf = .ok d ∧
          d.cnpj = none ∧ d.cpf = some (digitsOf t)) := by
  have hnorm14 : (digitsOf s).length ≠ 14 → destNormCnpj (some s) = none := by
    intro h
    show (if s = "" then none
      else if (digitsOf s).length = 14 then some (digitsOf s) else none) = none
    by_cases hs : s = ""
    · rw [if_pos hs]
    · rw [if_neg hs, if_neg h]
  have hnorm11 : (digitsOf t).length ≠ 11 → destNormCpf (some t) = none := by
    intro h
    show (if t = "" then none
      else if (digitsOf t).length = 11 then some (digitsOf t) else none) = none
    by_cases hs : t = ""
    · rw [if_pos hs]
    · rw [if_neg hs, if_neg h]
  have hcpf11 : (digitsOf t).length = 11 → destNormCpf (some t) = some (digitsOf t) := by
    intro h
    have ht : t ≠ "" := by
      rintro rfl
      simp [digitsOf] at h
    show (if t = "" then none
      else if (digitsOf t).length = 11 then some (digitsOf t) else none) = some (digitsOf t)
    rw [if_neg ht, if_pos h]
  refine ⟨hnorm14, hnorm11, ?_, ?_⟩
  · intro h hraz
    unfold mkDestinatario
    rw [if_neg (by have := length_pos_of_ne_empty razao hraz; omega),
      if_pos ⟨rfl, hnorm14 h⟩]
  · intro h h11 hraz
    refine ⟨⟨razao, none, some (digitsOf t), uf⟩, ?_, rfl, rfl⟩
    unfold mkDestinatario
    rw [if_neg (by have := length_pos_of_ne_empty razao hraz; omega),
      if_neg (by simp [hcpf11 h11]), if_neg (by simp [hnorm14 h]),
      hnorm14 h, hcpf11 h11]

/-- Witness for C2 at concrete inputs: both IDs present fails, neither
present fails. -/
theorem claim_C2_witness :
    (∃ e, mkDestinatario "Empresa" (some "12345678000195") (some "12345678901") Uf.SP = .error e)
    ∧ (∃ e, mkDestinatario "Empresa" none none Uf.SP = .error e) :=
  ⟨(claim_C2 "Empresa" (some "12345678000195") (some "12345678901") Uf.SP).2.1
      (by decide) (by decide),
   (claim_C2 "Empresa" none none Uf.SP).2.2 rfl rfl⟩

/-- Witness for C9 at concrete inputs. -/
theorem claim_C9_witness :
    (∃ e, mkICMS (some "00") (some "102") = .error e)
    ∧ (∃ e, mkICMS none none = .error e) :=
  ⟨(claim_C9 (some "00") (some "102")).2.1 rfl rfl,
   (claim_C9 none none).2.2 rfl rfl⟩

/-- Witness for C10 at the spec's concrete inputs: a 12-digit CNPJ string is
discarded, and `"123.456.789-01"` normalizes to the 11-digit CPF. -/
theorem claim_C10_witness :
    mkDestinatario "Cliente" (some "12.345.678/00") none Uf.SP =
      .error "Destinatario deve ter CPF ou CNPJ"
    ∧ ∃ d, mkDestinatario "Cliente" (some "12.345.678/00") (some "123.456.789-01") Uf.SP =
        .ok d ∧ d.cnpj = none ∧ d.cpf = some "12345678901" := by
  constructor
  · exact (claim_C10 "12.345.678/00" "x" "Cliente" Uf.SP).2.2.1 (by decide) (by decide)
  · obtain ⟨d, hd, h1, h2⟩ :=
      (claim_C10 "12.345.678/00" "123.456.789-01" "Cliente" Uf.SP).2.2.2
        (by decide) (by decide) (by decide)
    exact ⟨d, hd, h1, by rw [h2]; decide⟩

/-! ## Mapping store and classification engine
(`src/agents/classificador_contabil_agent.py`) -/

/-- `MIN_CONFIDENCE_FOR_AUTO_APPROVE` (line 17). -/
def MIN_CONFIDENCE_FOR_AUTO_APPROVE : ℚ := mkRat 75 100

/-- One row of the persisted CFOP→accounts table; the CSV written by
`upsert_cfop_mapping` always carries exactly the six `REQUIRED_MAP_FIELDS`
columns (line 19), and in `r.get(k) or default` a missing cell and an empty
cell behave identically, so rows of six strings capture the persisted
state. -/
structure MappingRow where
  cfop : String
  regime : String
  conta_debito : String
  conta_credito : String
  justificativa_base : String
  confianca : String
  deriving DecidableEq, Repr

/-- Per-row normalization performed by `_load_cfop_map` (lines 49-56):
every field stripped, `regime` defaulted to `"*"` then stripped and
lower-cased, `confianca` defaulted to `"0.70"` then stripped. -/
def loadNormRow (r : MappingRow) : MappingRow where
  cfop := pyStrip r.cfop
  regime := pyLower (pyStrip (if r.regime = "" then "*" else r.regime))
  conta_debito := pyStrip r.conta_debito
  conta_credito := pyStrip r.conta_credito
  justificativa_base := pyStrip r.justificativa_base
  confianca := pyStrip (if r.confianca = "" then "0.70" else r.confianca)

/-- `_load_cfop_map` (lines 38-60) applied to the persisted table; a
missing or unreadable file yields the empty table (logged, non-fatal). -/
def loadCfopMap (csv : List MappingRow) : List MappingRow :=
  csv.map loadNormRow

/-- First missing (falsy) required field of an upsert mapping, in
`REQUIRED_MAP_FIELDS` order (lines 70-72). -/
def firstMissingField (m : MappingRow) : Option String :=
  if m.cfop = "" then some "cfop"
  else if m.regime = "" then some "regime"
  else if m.conta_debito = "" then some "conta_debito"
  else if m.conta_credito = "" then some "conta_credito"
  else if m.justificativa_base = "" then some "justificativa_base"
  else if m.confianca = "" then some "confianca"
  else none

/-- The upsert input normalization `mapping_norm` (lines 74-81). -/
def upNorm (m : MappingRow) : MappingRow where
  cfop := pyStrip m.cfop
  regime := if pyLower (pyStrip m.regime) = "" then "*" else pyLower (pyStrip m.regime)
  conta_debito := pyStrip m.conta_debito
  conta_credito := pyStrip m.conta_credito
  justificativa_base := pyStrip m.justificativa_base
  confianca := pyStrip m.confianca

/-- Replace the first row with the same `(cfop, regime)` key in place, else
append (lines 87-94). -/
def upsertRows (rows : List MappingRow) (m : MappingRow) : List MappingRow :=
  match rows with
  | [] => [m]
  | r :: rs =>
      if r.cfop = m.cfop ∧ r.regime = m.regime then m :: rs
      else r :: upsertRows rs m

/-- `upsert_cfop_mapping` (lines 68-103): validate required fields (raising
`ValueError` on the first missing one), normalize, load the current table,
replace-or-append by `(cfop, regime)`, overwrite the whole table.  The
result is the new persisted CSV content (strings written by
`csv.DictWriter` round-trip verbatim through the CSV layer). -/
def upsert_cfop_mapping (csv : List MappingRow) (m : MappingRow) :
    Except String (List MappingRow) :=
  match firstMissingField m with
  | some k => .error ("Campo obrigatório ausente: " ++ k)
  | none => .ok (upsertRows (loadCfopMap csv) (upNorm m))

/-- The lookup regime normalization `(regime or "*").strip().lower()`
(line 116). -/
def lookupRegimeNorm (regime : Option String) : String :=
  pyLower (pyStrip (pyOrElse regime "*"))

/-- First row matching `(cfop, rn)` — the `for` loops of lines 118-123
return on the first match. -/
def findRow (rows : List MappingRow) (cfop rn : String) : Option MappingRow :=
  rows.find? (fun r => r.cfop == cfop && r.regime == rn)

/-- `float(r["confianca"] or 0.7)` (lines 120, 123): an empty string falls
back to `0.7`; a non-numeric string raises `ValueError` in CPython — there
is no handler around it. -/
def rowConf (r : MappingRow) : Except String ℚ :=
  if r.confianca = "" then .ok (mkRat 7 10)
  else match pyFloat? r.confianca with
    | some q => .ok q
    | none => .error ("could not convert string to float: " ++ r.confianca)

/-- The tuple a matched row contributes (lines 120, 123). -/
def rowResult (cfop rn : String) (r : MappingRow) :
    Except String (String × String × String × ℚ) :=
  match rowConf r with
  | .error e => .error e
  | .ok conf =>
      .ok (r.conta_debito, r.conta_credito,
        (if r.justificativa_base = ""
          then "CFOP " ++ cfop ++ " (regime=" ++ rn ++ ")"
          else r.justificativa_base), conf)

/-- `_match_cfop_in_csv` (lines 105-124): exact `(cfop, regime)` match
first, then `(cfop, "*")` wildcard, else `None`. -/
def _match_cfop_in_csv (csv : List MappingRow) (cfop : String)
    (regime : Option String) :
    Except String (Option (String × String × String × ℚ)) :=
  if (loadCfopMap csv).isEmpty then .ok none
  else
    match findRow (loadCfopMap csv) cfop (lookupRegimeNorm regime) with
    | some r => (rowResult cfop (lookupRegimeNorm regime) r).map some
    | none =>
        match findRow (loadCfopMap csv) cfop "*" with
        | some r => (rowResult cfop "*" r).map some
        | none => .ok none

/-- `_fallback_por_prefixo` (lines 126-132). -/
def _fallback_por_prefixo (cfop : String) : String × String × String × ℚ :=
  if startsWithChar cfop '1' || startsWithChar cfop '2' then
    ("Estoques de Mercadorias", "Fornecedores",
      "Operação de ENTRADA (compra) identificada por CFOP iniciando em 1/2.", mkRat 65 100)
  else if startsWithChar cfop '5' || startsWithChar cfop '6' then
    ("Clientes", "Receita de Vendas",
      "Operação de SAÍDA (venda) identificada por CFOP iniciando em 5/6.", mkRat 65 100)
  else
    ("Conta a Classificar (Débito)", "Conta a Classificar (Crédito)",
      "CFOP fora dos intervalos mínimos do MVP; aplicar regras detalhadas.", mkRat 50 100)

/-- `_natureza` (lines 35-36). -/
def _natureza (emit_uf dest_uf : Uf) : String :=
  if emit_uf = dest_uf then "interna" else "interestadual"

/-- `ClassificacaoContabil` (lines 21-33). -/
structure ClassificacaoContabil where
  cfop : String
  natureza_operacao : String
  conta_debito : String
  conta_credito : String
  justificativa : String
  ncm_itens : List (Option String)
  confianca : ℚ
  needs_human_review : Bool
  review_reason : Option String
  rule_version : String
  deriving DecidableEq, Repr

/-- Pydantic construction of `ClassificacaoContabil`: the only constraint
that can fail is `cfop`'s `min_length=4, max_length=4`. -/
def mkClassificacaoContabil (cfop natureza cd cc just : String)
    (ncm : List (Option String)) (conf : ℚ) (needs : Bool) (reason : Option String) :
    Except String ClassificacaoContabil :=
  if cfop.length = 4 then
    .ok { cfop := cfop, natureza_operacao := natureza, conta_debito := cd,
          conta_credito := cc, justificativa := just, ncm_itens := ncm,
          confianca := conf, needs_human_review := needs, review_reason := reason,
          rule_version := "v0.4" }
  else .error "cfop: String should have 4 characters"

/-- The review reason f-string for a low-confidence CSV match (line 147). -/
def lowConfReason (conf : ℚ) (cfop rg : String) : String :=
  "Confiança abaixo do mínimo (" ++ format2 conf ++ " < " ++
    format2 MIN_CONFIDENCE_FOR_AUTO_APPROVE ++ "). Revisar CFOP " ++ cfop ++
    " (regime=" ++ rg ++ ")."

/-- The review reason f-string when no mapping is found (line 151). -/
def fallbackReason (cfop rg : String) : String :=
  "Mapeamento não encontrado no CSV para CFOP " ++ cfop ++ " (regime=" ++ rg ++
    "). Aplicado fallback por prefixo. Revisão humana obrigatória."

/-- The justification composition f-string (lines 153 and 187). -/
def justifText (base natureza : String) (valor : ℚ) : String :=
  base ++ " Natureza: " ++ natureza ++
    ". Valor total da NF-e considerado para contexto: " ++ format2 valor ++ "."

/-- `classificar_contabil` (lines 134-182).  The only failure paths are the
unguarded `float` conversion inside `_match_cfop_in_csv` and pydantic
validation of the output model (impossible for a structurally valid
payload). -/
def classificar_contabil (csv : List MappingRow) (p : NFePayload)
    (regime_tributario : Option String) : Except String ClassificacaoContabil := do
  let contas_csv ← _match_cfop_in_csv csv p.cfop regime_tributario
  let natureza := _natureza p.emitente.uf p.destinatario.uf
  let rg := pyOrElse regime_tributario "*"
  match contas_csv with
  | some (d, c, j, cf) =>
      if cf < MIN_CONFIDENCE_FOR_AUTO_APPROVE then
        mkClassificacaoContabil p.cfop natureza d c (justifText j natureza p.valor_total)
          (p.itens.map (fun it => it.ncm)) cf true (some (lowConfReason cf p.cfop rg))
      else
        mkClassificacaoContabil p.cfop natureza d c (justifText j natureza p.valor_total)
          (p.itens.map (fun it => it.ncm)) cf false none
  | none =>
      match _fallback_por_prefixo p.cfop with
      | (d, c, j, cf) =>
          mkClassificacaoContabil p.cfop natureza d c (justifText j natureza p.valor_total)
            (p.itens.map (fun it => it.ncm)) cf true (some (fallbackReason p.cfop rg))

/-- `classificacao_from_human` (lines 184-200): builds the final result
directly from the human-validated mapping; `float(mapping["confianca"])`
parses the confidence written into the mapping. -/
def classificacao_from_human (p : NFePayload) (m : MappingRow) :
    Except String ClassificacaoContabil :=
  match pyFloat? m.confianca with
  | none => .error ("could not convert string to float: " ++ m.confianca)
  | some conf =>
      mkClassificacaoContabil m.cfop (_natureza p.emitente.uf p.destinatario.uf)
        m.conta_debito m.conta_credito
        (justifText m.justificativa_base (_natureza p.emitente.uf p.destinatario.uf) p.valor_total)
        (p.itens.map (fun it => it.ncm)) conf false
        (some "Mapeamento informado por revisão humana aplicado e persistido no CSV.")

/-! ## Store lemmas -/

/-- The `(cfop, regime)` key of a row. -/
def rowKey (r : MappingRow) : String × String := (r.cfop, r.regime)

theorem findRow_upsertRows (rows : List MappingRow) (m : MappingRow) :
    findRow (upsertRows rows m) m.cfop m.regime = some m := by
  induction rows with
  | nil =>
      show findRow [m] m.cfop m.regime = some m
      unfold findRow
      rw [List.find?_cons_of_pos _ (by simp)]
  | cons r rs ih =>
      show findRow (if r.cfop = m.cfop ∧ r.regime = m.regime then m :: rs
        else r :: upsertRows rs m) m.cfop m.regime = some m
      split
      · unfold findRow
        rw [List.find?_cons_of_pos _ (by simp)]
      · rename_i hne
        unfold findRow at ih ⊢
        rw [List.find?_cons_of_neg]
        · exact ih
        · simp only [Bool.and_eq_true, beq_iff_eq, not_and]
          intro hc hr
          exact hne ⟨hc, hr⟩

theorem mem_upsertRows (rows : List MappingRow) (m x : MappingRow)
    (h : x ∈ upsertRows rows m) : x ∈ rows ∨ x = m := by
  induction rows with
  | nil =>
      right
      simpa [upsertRows] using h
  | cons r rs ih =>
      unfold upsertRows at h
      split at h
      · rcases List.mem_cons.mp h with rfl | hx
        · exact Or.inr rfl
        · exact Or.inl (List.mem_cons_of_mem _ hx)
      · rcases List.mem_cons.mp h with rfl | hx
        · exact Or.inl (List.mem_cons_self _ _)
        · rcases ih hx with h1 | h2
          · exact Or.inl (List.mem_cons_of_mem _ h1)
          · exact Or.inr h2

theorem upsertRows_ne_nil (rows : List MappingRow) (m : MappingRow) :
    upsertRows rows m ≠ [] := by
  cases rows with
  | nil => simp [upsertRows]
  | cons r rs =>
      unfold upsertRows
      split <;> simp

theorem loadCfopMap_eq_self (csv : List MappingRow) (h : ∀ r ∈ csv, loadNormRow r = r) :
    loadCfopMap csv = csv := by
  induction csv with
  | nil => rfl
  | cons r rs ih =>
      show loadNormRow r :: loadCfopMap rs = r :: rs
      rw [h r (List.mem_cons_self _ _), ih fun x hx => h x (List.mem_cons_of_mem _ hx)]

theorem firstMissingField_none (m : MappingRow) (h : firstMissingField m = none) :
    m.cfop ≠ "" ∧ m.regime ≠ "" ∧ m.conta_debito ≠ "" ∧ m.conta_credito ≠ "" ∧
    m.justificativa_base ≠ "" ∧ m.confianca ≠ "" := by
  unfold firstMissingField at h
  split_ifs at h with h1 h2 h3 h4 h5 h6
  exact ⟨h1, h2, h3, h4, h5, h6⟩

theorem upNorm_regime_fix (m : MappingRow) (hup : upNorm m = m) :
    pyLower (pyStrip m.regime) = m.regime ∧ m.regime ≠ "" := by
  have h := congrArg MappingRow.regime hup
  show _ ∧ _
  by_cases hc : pyLower (pyStrip m.regime) = ""
  · exfalso
    have h' : (if pyLower (pyStrip m.regime) = "" then "*"
        else pyLower (pyStrip m.regime)) = m.regime := h
    rw [if_pos hc] at h'
    rw [← h'] at hc
    exact absurd hc (by decide)
  · have h' : (if pyLower (pyStrip m.regime) = "" then "*"
        else pyLower (pyStrip m.regime)) = m.regime := h
    rw [if_neg hc] at h'
    exact ⟨h', fun he => hc (by rw [h', he])⟩

/-- Claim C6: mapping lookup order — for a lookup with code `X` and regime
`Y`, an exact `(X, Y)` row (the first such) is returned if one exists;
otherwise the first `(X, "*")` wildcard row's accounts, justification and
confidence are returned if one exists; otherwise the lookup returns
nothing. -/
theorem claim_C6 (csv : List MappingRow) (cfop : String) (regime : Option String) :
    (∀ r, findRow (loadCfopMap csv) cfop (lookupRegimeNorm regime) = some r →
        _match_cfop_in_csv csv cfop regime =
          (rowResult cfop (lookupRegimeNorm regime) r).map some)
    ∧ (findRow (loadCfopMap csv) cfop (lookupRegimeNorm regime) = none →
        ∀ r, findRow (loadCfopMap csv) cfop "*" = some r →
        _match_cfop_in_csv csv cfop regime = (rowResult cfop "*" r).map some)
    ∧ (findRow (loadCfopMap csv) cfop (lookupRegimeNorm regime) = none →
        findRow (loadCfopMap csv) cfop "*" = none →
        _match_cfop_in_csv csv cfop regime = .ok none) := by
  refine ⟨?_, ?_, ?_⟩
  · intro r hr
    have hne : (loadCfopMap csv).isEmpty = false := by
      cases hl : loadCfopMap csv
      · rw [hl] at hr
        exact absurd hr (by simp [findRow])
      · rfl
    unfold _match_cfop_in_csv
    rw [hne]
    simp only [Bool.false_eq_true, if_false]
    rw [hr]
  · intro hnone r hr
    have hne : (loadCfopMap csv).isEmpty = false := by
      cases hl : loadCfopMap csv
      · rw [hl] at hr
        exact absurd hr (by simp [findRow])
      · rfl
    unfold _match_cfop_in_csv
    rw [hne]
    simp only [Bool.false_eq_true, if_false]
    rw [hnone, hr]
  · intro hnone hwild
    unfold _match_cfop_in_csv
    split
    · rfl
    · rw [hnone, hwild]

/-- A concrete running example payload (CFOP 5102, SP → RJ, one item). -/
def exPayload : NFePayload where
  cfop := "5102"
  emitente := { razao_social := "Emitente Ltda", cnpj := "12345678000195", uf := Uf.SP }
  destinatario :=
    { razao_social := "Cliente", cnpj := none, cpf := some "12345678901", uf := Uf.RJ }
  valor_total := 1500
  itens := [{ descricao := "Mercadoria", ncm := some "12345678", valor := 1500 }]

theorem exPayload_valid : validPayload exPayload :=
  ⟨rfl, rfl, by norm_num [exPayload], by simp [exPayload]⟩

/-- A concrete two-row store used by the C6 witness: an exact
`(5102, simples)` row plus a `(5102, *)` wildcard row. -/
def c6csv : List MappingRow :=
  [⟨"5102", "simples", "D1", "C1", "J1", "0.9"⟩, ⟨"5102", "*", "D2", "C2", "J2", "0.8"⟩]

/-- Witness for C6: a `simples` lookup returns the exact row, a `presumido`
lookup falls back to the wildcard row, and a `9999` lookup returns
nothing. -/
theorem claim_C6_witness :
    _match_cfop_in_csv c6csv "5102" (some "simples") =
      .ok (some ("D1", "C1", "J1", mkRat 9 10))
    ∧ _match_cfop_in_csv c6csv "5102" (some "presumido") =
      .ok (some ("D2", "C2", "J2", mkRat 8 10))
    ∧ _match_cfop_in_csv c6csv "9999" (some "simples") = .ok none := by
  refine ⟨?_, ?_, ?_⟩
  · rw [(claim_C6 c6csv "5102" (some "simples")).1
      ⟨"5102", "simples", "D1", "C1", "J1", "0.9"⟩ rfl]
    rfl
  · rw [(claim_C6 c6csv "5102" (some "presumido")).2.1 rfl
      ⟨"5102", "*", "D2", "C2", "J2", "0.8"⟩ rfl]
    rfl
  · exact (claim_C6 c6csv "9999" (some "simples")).2.2 rfl rfl

/-! ## Classifier claims -/

/-- Successful pydantic construction of the output model when `cfop` has
length 4. -/
theorem mkClassificacaoContabil_ok (cfop natureza cd cc just : String)
    (ncm : List (Option String)) (conf : ℚ) (needs : Bool) (reason : Option String)
    (h : cfop.length = 4) :
    mkClassificacaoContabil cfop natureza cd cc just ncm conf needs reason =
      .ok { cfop := cfop, natureza_operacao := natureza, conta_debito := cd,
            conta_credito := cc, justificativa := just, ncm_itens := ncm,
            confianca := conf, needs_human_review := needs, review_reason := reason,
            rule_version := "v0.4" } := by
  unfold mkClassificacaoContabil
  rw [if_pos h]

/-- Evaluation of `classificar_contabil` when the store lookup finds a
row. -/
theorem classificar_eq_of_match_some (csv : List MappingRow) (p : NFePayload)
    (regime : Option String) (d c j : String) (cf : ℚ)
    (hx : _match_cfop_in_csv csv p.cfop regime = .ok (some (d, c, j, cf))) :
    classificar_contabil csv p regime =
      (if cf < MIN_CONFIDENCE_FOR_AUTO_APPROVE then
        mkClassificacaoContabil p.cfop (_natureza p.emitente.uf p.destinatario.uf) d c
          (justifText j (_natureza p.emitente.uf p.destinatario.uf) p.valor_total)
          (p.itens.map (fun it => it.ncm)) cf true
          (some (lowConfReason cf p.cfop (pyOrElse regime "*")))
      else
        mkClassificacaoContabil p.cfop (_natureza p.emitente.uf p.destinatario.uf) d c
          (justifText j (_natureza p.emitente.uf p.destinatario.uf) p.valor_total)
          (p.itens.map (fun it => it.ncm)) cf false none) := by
  unfold classificar_contabil
  rw [hx]
  rfl

/-- Evaluation of `classificar_contabil` when the store lookup finds
nothing. -/
theorem classificar_eq_of_match_none (csv : List MappingRow) (p : NFePayload)
    (regime : Option String)
    (hx : _match_cfop_in_csv csv p.cfop regime = .ok none) :
    classificar_contabil csv p regime =
      mkClassificacaoContabil p.cfop (_natureza p.emitente.uf p.destinatario.uf)
        (_fallback_por_prefixo p.cfop).1 (_fallback_por_prefixo p.cfop).2.1
        (justifText (_fallback_por_prefixo p.cfop).2.2.1
          (_natureza p.emitente.uf p.destinatario.uf) p.valor_total)
        (p.itens.map (fun it => it.ncm)) (_fallback_por_prefixo p.cfop).2.2.2 true
        (some (fallbackReason p.cfop (pyOrElse regime "*"))) := by
  unfold classificar_contabil
  rw [hx]
  rfl

theorem format2_min : format2 MIN_CONFIDENCE_FOR_AUTO_APPROVE = "0.75" := by decide

/-- Claim C1: for every validated document and optional regime hint, when
the store lookup finds a row (exact regime or wildcard) with confidence
`conf`: if `conf ≥ 0.75` the result has `needs_human_review = false` and a
null review reason; if `conf < 0.75` it has `needs_human_review = true`
with a review reason mentioning the `0.75` threshold. -/
theorem claim_C1 (csv : List MappingRow) (p : NFePayload) (regime : Option String)
    (d c j : String) (conf : ℚ) (hval : validPayload p)
    (hm : _match_cfop_in_csv csv p.cfop regime = .ok (some (d, c, j, conf))) :
    ∃ out, classificar_contabil csv p regime = .ok out ∧
      (MIN_CONFIDENCE_FOR_AUTO_APPROVE ≤ conf →
        out.needs_human_review = false ∧ out.review_reason = none) ∧
      (conf < MIN_CONFIDENCE_FOR_AUTO_APPROVE →
        out.needs_human_review = true ∧
        ∃ r a b, out.review_reason = some r ∧ r = a ++ "0.75" ++ b) := by
  have hrun := classificar_eq_of_match_some csv p regime d c j conf hm
  by_cases hc : conf < MIN_CONFIDENCE_FOR_AUTO_APPROVE
  · have hrun2 := hrun.trans ((if_pos hc).trans
      (mkClassificacaoContabil_ok _ _ _ _ _ _ _ _ _ hval.1))
    refine ⟨_, hrun2, ?_, ?_⟩
    · intro hge
      exact absurd hc (not_lt.mpr hge)
    · intro _
      refine ⟨rfl, lowConfReason conf p.cfop (pyOrElse regime "*"),
        "Confiança abaixo do mínimo (" ++ format2 conf ++ " < ",
        "). Revisar CFOP " ++ p.cfop ++ " (regime=" ++ pyOrElse regime "*" ++ ").",
        rfl, ?_⟩
      unfold lowConfReason
      rw [format2_min]
      apply String.ext
      simp [String.data_append]
  · have hrun2 := hrun.trans ((if_neg hc).trans
      (mkClassificacaoContabil_ok _ _ _ _ _ _ _ _ _ hval.1))
    exact ⟨_, hrun2, fun _ => ⟨rfl, rfl⟩, fun hlt => absurd hlt hc⟩

/-- Witness for C1 at concrete stores: confidence `0.85 ≥ 0.75` gives no
review; confidence `0.60 < 0.75` gives a review reason containing
`"0.75"`. -/
theorem claim_C1_witness :
    (∃ out, classificar_contabil [⟨"5102", "*", "D", "C", "J", "0.85"⟩] exPayload none =
        .ok out ∧ out.needs_human_review = false ∧ out.review_reason = none)
    ∧ (∃ out, classificar_contabil [⟨"5102", "*", "D", "C", "J", "0.60"⟩] exPayload none =
        .ok out ∧ out.needs_human_review = true ∧
        ∃ r a b, out.review_reason = some r ∧ r = a ++ "0.75" ++ b) := by
  constructor
  · obtain ⟨out, hok, hgate, _⟩ :=
      claim_C1 [⟨"5102", "*", "D", "C", "J", "0.85"⟩] exPayload none
        "D" "C" "J" (mkRat 85 100) exPayload_valid rfl
    exact ⟨out, hok, hgate (by decide)⟩
  · obtain ⟨out, hok, _, hgate⟩ :=
      claim_C1 [⟨"5102", "*", "D", "C", "J", "0.60"⟩] exPayload none
        "D" "C" "J" (mkRat 60 100) exPayload_valid rfl
    have h := hgate (by decide)
    exact ⟨out, hok, h.1, h.2⟩

theorem startsWithChar_unique (s : String) (c c' : Char) (hne : c ≠ c')
    (h : startsWithChar s c = true) : startsWithChar s c' = false := by
  unfold startsWithChar at h ⊢
  cases hd : s.data with
  | nil =>
      rw [hd] at h
  | cons a t =>
      rw [hd] at h
      have ha : a = c := by simpa using h
      subst ha
      simpa using hne

/-- Claim C4: with no mapping row for the document's code (neither exact
nor wildcard) and a code starting with `5` or `6`, the classifier returns
debit `"Clientes"`, credit `"Receita de Vendas"`, confidence `0.65`, and
`needs_human_review = true`. -/
theorem claim_C4 (csv : List MappingRow) (p : NFePayload) (regime : Option String)
    (hval : validPayload p)
    (hm : _match_cfop_in_csv csv p.cfop regime = .ok none)
    (h56 : startsWithChar p.cfop '5' = true ∨ startsWithChar p.cfop '6' = true) :
    ∃ out, classificar_contabil csv p regime = .ok out ∧
      out.conta_debito = "Clientes" ∧ out.conta_credito = "Receita de Vendas" ∧
      out.confianca = 65 / 100 ∧ out.needs_human_review = true := by
  have hfb : _fallback_por_prefixo p.cfop =
      ("Clientes", "Receita de Vendas",
        "Operação de SAÍDA (venda) identificada por CFOP iniciando em 5/6.", mkRat 65 100) := by
    have h12 : (startsWithChar p.cfop '1' || startsWithChar p.cfop '2') = false := by
      rcases h56 with h | h
      · rw [startsWithChar_unique p.cfop '5' '1' (by decide) h,
          startsWithChar_unique p.cfop '5' '2' (by decide) h]
        rfl
      · rw [startsWithChar_unique p.cfop '6' '1' (by decide) h,
          startsWithChar_unique p.cfop '6' '2' (by decide) h]
        rfl
    have h56' : (startsWithChar p.cfop '5' || startsWithChar p.cfop '6') = true := by
      rcases h56 with h | h <;> simp [h]
    unfold _fallback_por_prefixo
    rw [h12, h56']
    simp
  have hrun := classificar_eq_of_match_none csv p regime hm
  rw [hfb] at hrun
  have hrun2 := hrun.trans (mkClassificacaoContabil_ok _ _ _ _ _ _ _ _ _ hval.1)
  refine ⟨_, hrun2, rfl, rfl, ?_, rfl⟩
  show mkRat 65 100 = 65 / 100
  rw [Rat.mkRat_eq_div]
  norm_num

/-- Witness for C4 at the spec's example: CFOP `"5102"`, no regime hint,
empty store. -/
theorem claim_C4_witness :
    ∃ out, classificar_contabil [] exPayload none = .ok out ∧
      out.conta_debito = "Clientes" ∧ out.conta_credito = "Receita de Vendas" ∧
      out.confianca = 65 / 100 ∧ out.needs_human_review = true :=
  claim_C4 [] exPayload none exPayload_valid rfl (Or.inl rfl)

/-- The store used by the counterexample to claim C7: a row matching CFOP
`5102` whose `confianca` cell is not numeric. -/
def c7csv : List MappingRow :=
  [⟨"5102", "*", "Clientes", "Receita de Vendas", "Venda de mercadoria", "abc"⟩]

/-- Counterexample to claim C7 as stated: `classificar_contabil` is *not*
total on arbitrary persisted table contents — on a structurally valid
document whose CFOP matches a row with non-numeric `confianca`, the
unguarded `float(r["confianca"])` inside `_match_cfop_in_csv` (line 120)
raises `ValueError`, and `classificar_contabil` (lines 134-182) has no
handler around the lookup, so the exception propagates. -/
theorem claim_C7_counterexample :
    validPayload exPayload ∧
    classificar_contabil c7csv exPayload none =
      .error "could not convert string to float: abc" :=
  ⟨exPayload_valid, rfl⟩

theorem rowConf_ok (r : MappingRow)
    (h : r.confianca = "" ∨ (pyFloat? r.confianca).isSome = true) :
    ∃ v, rowConf r = .ok v := by
  unfold rowConf
  by_cases he : r.confianca = ""
  · rw [if_pos he]
    exact ⟨_, rfl⟩
  · rw [if_neg he]
    rcases h with h | h
    · exact absurd h he
    · obtain ⟨v, hv⟩ := Option.isSome_iff_exists.mp h
      rw [hv]
      exact ⟨v, rfl⟩

theorem rowResult_ok (cfop rn : String) (r : MappingRow) (v : ℚ)
    (hv : rowConf r = .ok v) :
    rowResult cfop rn r =
      .ok (r.conta_debito, r.conta_credito,
        (if r.justificativa_base = "" then "CFOP " ++ cfop ++ " (regime=" ++ rn ++ ")"
          else r.justificativa_base), v) := by
  unfold rowResult
  rw [hv]

/-- Amended claim C7: the classification engine is total on valid input
*provided every row of the loaded mapping table has an empty or
decimal-parseable confidence field* — in particular whenever the store is
missing (load failure yields the empty table, handled by the fallback) or
well-formed; a matching row with a non-numeric confidence raises instead
(see `claim_C7_counterexample`). -/
theorem claim_C7_amended (csv : List MappingRow) (p : NFePayload) (regime : Option String)
    (hval : validPayload p)
    (hconf : ∀ r ∈ loadCfopMap csv, r.confianca = "" ∨ (pyFloat? r.confianca).isSome = true) :
    ∃ out, classificar_contabil csv p regime = .ok out := by
  have hmatch : ∃ x, _match_cfop_in_csv csv p.cfop regime = .ok x := by
    unfold _match_cfop_in_csv
    split
    · exact ⟨none, rfl⟩
    · cases hf : findRow (loadCfopMap csv) p.cfop (lookupRegimeNorm regime) with
      | some r =>
          obtain ⟨v, hv⟩ := rowConf_ok r (hconf r (List.mem_of_find?_eq_some hf))
          show ∃ x, (rowResult p.cfop (lookupRegimeNorm regime) r).map some = .ok x
          rw [rowResult_ok _ _ r v hv]
          exact ⟨_, rfl⟩
      | none =>
          cases hw : findRow (loadCfopMap csv) p.cfop "*" with
          | some r =>
              obtain ⟨v, hv⟩ := rowConf_ok r (hconf r (List.mem_of_find?_eq_some hw))
              show ∃ x, (rowResult p.cfop "*" r).map some = .ok x
              rw [rowResult_ok _ _ r v hv]
              exact ⟨_, rfl⟩
          | none => exact ⟨none, rfl⟩
  obtain ⟨x, hx⟩ := hmatch
  cases x with
  | none =>
      have hrun := classificar_eq_of_match_none csv p regime hx
      exact ⟨_, hrun.trans (mkClassificacaoContabil_ok _ _ _ _ _ _ _ _ _ hval.1)⟩
  | some t =>
      rcases t with ⟨d, c, j, cf⟩
      have hrun := classificar_eq_of_match_some csv p regime d c j cf hx
      by_cases hc : cf < MIN_CONFIDENCE_FOR_AUTO_APPROVE
      · exact ⟨_, hrun.trans ((if_pos hc).trans
          (mkClassificacaoContabil_ok _ _ _ _ _ _ _ _ _ hval.1))⟩
      · exact ⟨_, hrun.trans ((if_neg hc).trans
          (mkClassificacaoContabil_ok _ _ _ _ _ _ _ _ _ hval.1))⟩

/-- Witness for the amended C7: a table whose rows all carry numeric or
empty confidence never makes the classifier raise. -/
theorem claim_C7_amended_witness :
    ∃ out, classificar_contabil
      [⟨"5102", "*", "D", "C", "J", "0.55"⟩, ⟨"6108", "*", "D", "C", "", ""⟩]
      exPayload (some "simples") = .ok out := by
  refine claim_C7_amended _ exPayload (some "simples") exPayload_valid ?_
  intro r hr
  simp only [loadCfopMap, List.map_cons, List.map_nil, List.mem_cons,
    List.not_mem_nil, or_false] at hr
  rcases hr with rfl | rfl
  · right
    decide
  · right
    decide

/-! ## Store round-trip and last-write-wins -/

/-- Claim C3: after upserting a store-normal mapping record with all six
required fields non-empty, an immediately following lookup for the same
`(cfop, regime)` key returns exactly the written debit account, credit
account and justification, and the confidence as the exact numeric value
of the written decimal string. -/
theorem claim_C3 (csv : List MappingRow) (m : MappingRow)
    (hstable : ∀ r ∈ csv, loadNormRow r = r)
    (hup : upNorm m = m) (hload : loadNormRow m = m)
    (hmiss : firstMissingField m = none)
    (q : ℚ) (hq : pyFloat? m.confianca = some q) :
    ∃ tbl, upsert_cfop_mapping csv m = .ok tbl ∧
      _match_cfop_in_csv tbl m.cfop (some m.regime) =
        .ok (some (m.conta_debito, m.conta_credito, m.justificativa_base, q)) := by
  obtain ⟨hc1, hc2, hc3, hc4, hc5, hc6⟩ := firstMissingField_none m hmiss
  have hupsert : upsert_cfop_mapping csv m = .ok (upsertRows csv m) := by
    unfold upsert_cfop_mapping
    rw [hmiss, loadCfopMap_eq_self csv hstable, hup]
  refine ⟨upsertRows csv m, hupsert, ?_⟩
  have hstable2 : ∀ r ∈ upsertRows csv m, loadNormRow r = r := by
    intro r hr
    rcases mem_upsertRows csv m r hr with h1 | rfl
    · exact hstable r h1
    · exact hload
  have hln : loadCfopMap (upsertRows csv m) = upsertRows csv m :=
    loadCfopMap_eq_self _ hstable2
  have hregime := upNorm_regime_fix m hup
  have hlrn : lookupRegimeNorm (some m.regime) = m.regime := by
    show pyLower (pyStrip (if m.regime = "" then "*" else m.regime)) = m.regime
    rw [if_neg hregime.2]
    exact hregime.1
  have hfind : findRow (upsertRows csv m) m.cfop m.regime = some m :=
    findRow_upsertRows csv m
  have hne : (upsertRows csv m).isEmpty = false := by
    cases he : upsertRows csv m
    · exact absurd he (upsertRows_ne_nil csv m)
    · rfl
  have hconf : rowConf m = .ok q := by
    unfold rowConf
    rw [if_neg hc6, hq]
  unfold _match_cfop_in_csv
  rw [hln, hne]
  simp only [Bool.false_eq_true, if_false]
  rw [hlrn, hfind]
  show (rowResult m.cfop m.regime m).map some = _
  rw [rowResult_ok _ _ m q hconf, if_neg hc5]
  rfl

/-- Witness for C3: upserting the spec's example record with confidence
`"0.85"` and looking the same key up returns the record with confidence
exactly `0.85 = 85/100`. -/
theorem claim_C3_witness :
    (∃ tbl, upsert_cfop_mapping [] ⟨"5102", "*", "Clientes", "Receita de Vendas", "Venda", "0.85"⟩ =
        .ok tbl ∧
      _match_cfop_in_csv tbl "5102" (some "*") =
        .ok (some ("Clientes", "Receita de Vendas", "Venda", mkRat 85 100)))
    ∧ mkRat 85 100 = 85 / 100 := by
  constructor
  · exact claim_C3 [] ⟨"5102", "*", "Clientes", "Receita de Vendas", "Venda", "0.85"⟩
      (by intro r hr; cases hr) (by decide) (by decide) (by decide) (mkRat 85 100) (by decide)
  · rw [Rat.mkRat_eq_div]
    norm_num

theorem upsertRows_filter_ne (rows : List MappingRow) (m : MappingRow) (kc kr : String)
    (hk : m.cfop = kc ∧ m.regime = kr) :
    (upsertRows rows m).filter (fun r => !(r.cfop == kc && r.regime == kr)) =
      rows.filter (fun r => !(r.cfop == kc && r.regime == kr)) := by
  induction rows with
  | nil =>
      show [m].filter _ = _
      simp [List.filter, hk.1, hk.2]
  | cons r rs ih =>
      show (if r.cfop = m.cfop ∧ r.regime = m.regime then m :: rs
        else r :: upsertRows rs m).filter _ = _
      split
      · rename_i hcond
        simp only [List.filter_cons]
        have h1 : (!(m.cfop == kc && m.regime == kr)) = false := by
          simp [hk.1, hk.2]
        have h2 : (!(r.cfop == kc && r.regime == kr)) = false := by
          simp [hcond.1, hk.1, hcond.2, hk.2]
        rw [h1, h2]
        simp
      · simp only [List.filter_cons, ih]

theorem upsertRows_filter_eq (rows : List MappingRow) (m : MappingRow) (kc kr : String)
    (hk : m.cfop = kc ∧ m.regime = kr)
    (hnodup : rows.Pairwise (fun a b => rowKey a ≠ rowKey b)) :
    (upsertRows rows m).filter (fun r => r.cfop == kc && r.regime == kr) = [m] := by
  induction rows with
  | nil =>
      show [m].filter _ = _
      simp [List.filter, hk.1, hk.2]
  | cons r rs ih =>
      have hpair := List.pairwise_cons.mp hnodup
      show (if r.cfop = m.cfop ∧ r.regime = m.regime then m :: rs
        else r :: upsertRows rs m).filter _ = _
      split
      · rename_i hcond
        have hrs : rs.filter (fun x => x.cfop == kc && x.regime == kr) = [] := by
          rw [List.filter_eq_nil_iff]
          intro x hx
          have hne := hpair.1 x hx
          simp only [Bool.and_eq_true, beq_iff_eq, not_and]
          intro hxc hxr
          apply hne
          unfold rowKey
          rw [hcond.1, hk.1, hcond.2, hk.2, hxc, hxr]
        simp only [List.filter_cons]
        have h1 : (m.cfop == kc && m.regime == kr) = true := by simp [hk.1, hk.2]
        rw [h1]
        simp [hrs]
      · rename_i hcond
        have hpr : (r.cfop == kc && r.regime == kr) = false := by
          cases hb : (r.cfop == kc && r.regime == kr) with
          | false => rfl
          | true =>
              rw [Bool.and_eq_true, beq_iff_eq, beq_iff_eq] at hb
              exact absurd ⟨hb.1.trans hk.1.symm, hb.2.trans hk.2.symm⟩ hcond
        simp only [List.filter_cons, hpr]
        simp only [Bool.false_eq_true, if_false]
        exact ih hpair.2

theorem upsertRows_pairwise (rows : List MappingRow) (m : MappingRow)
    (hnodup : rows.Pairwise (fun a b => rowKey a ≠ rowKey b)) :
    (upsertRows rows m).Pairwise (fun a b => rowKey a ≠ rowKey b) := by
  induction rows with
  | nil =>
      show ([m] : List MappingRow).Pairwise _
      simp
  | cons r rs ih =>
      have hpair := List.pairwise_cons.mp hnodup
      show (if r.cfop = m.cfop ∧ r.regime = m.regime then m :: rs
        else r :: upsertRows rs m).Pairwise _
      split
      · rename_i hcond
        rw [List.pairwise_cons]
        refine ⟨?_, hpair.2⟩
        intro b hb
        have : rowKey m = rowKey r := by
          unfold rowKey
          rw [hcond.1, hcond.2]
        rw [this]
        exact hpair.1 b hb
      · rename_i hcond
        rw [List.pairwise_cons]
        refine ⟨?_, ih hpair.2⟩
        intro b hb
        rcases mem_upsertRows rs m b hb with h1 | rfl
        · exact hpair.1 b h1
        · intro hkey
          unfold rowKey at hkey
          rw [Prod.mk.injEq] at hkey
          exact hcond ⟨hkey.1, hkey.2⟩

/-- Claim C5: upsert is last-write-wins on its key — after upserting `m1`
and then `m2` with the same normalized `(cfop, regime)` key into a
duplicate-free, store-normal table, the persisted table holds exactly one
row for that key carrying the second upsert's values, and rows with other
keys are unchanged. -/
theorem claim_C5 (csv : List MappingRow) (m1 m2 : MappingRow)
    (hstable : ∀ r ∈ csv, loadNormRow r = r)
    (hnodup : csv.Pairwise (fun a b => rowKey a ≠ rowKey b))
    (hn1 : loadNormRow (upNorm m1) = upNorm m1)
    (hkey : rowKey (upNorm m1) = rowKey (upNorm m2))
    (hm1 : firstMissingField m1 = none) (hm2 : firstMissingField m2 = none)
    (t1 t2 : List MappingRow)
    (h1 : upsert_cfop_mapping csv m1 = .ok t1)
    (h2 : upsert_cfop_mapping t1 m2 = .ok t2) :
    t2.filter (fun r => r.cfop == (upNorm m2).cfop && r.regime == (upNorm m2).regime) =
      [upNorm m2] ∧
    t2.filter (fun r => !(r.cfop == (upNorm m2).cfop && r.regime == (upNorm m2).regime)) =
      csv.filter (fun r => !(r.cfop == (upNorm m2).cfop && r.regime == (upNorm m2).regime)) := by
  have ht1 : t1 = upsertRows csv (upNorm m1) := by
    have := h1
    unfold upsert_cfop_mapping at this
    rw [hm1, loadCfopMap_eq_self csv hstable] at this
    exact ((Except.ok.injEq _ _).mp this).symm
  have hstable1 : ∀ r ∈ t1, loadNormRow r = r := by
    intro r hr
    rw [ht1] at hr
    rcases mem_upsertRows csv (upNorm m1) r hr with hh | rfl
    · exact hstable r hh
    · exact hn1
  have ht2 : t2 = upsertRows t1 (upNorm m2) := by
    have := h2
    unfold upsert_cfop_mapping at this
    rw [hm2, loadCfopMap_eq_self t1 hstable1] at this
    exact ((Except.ok.injEq _ _).mp this).symm
  have hnodup1 : t1.Pairwise (fun a b => rowKey a ≠ rowKey b) := by
    rw [ht1]
    exact upsertRows_pairwise csv (upNorm m1) hnodup
  have hkey1 : (upNorm m1).cfop = (upNorm m2).cfop ∧ (upNorm m1).regime = (upNorm m2).regime := by
    unfold rowKey at hkey
    rw [Prod.mk.injEq] at hkey
    exact hkey
  constructor
  · rw [ht2]
    exact upsertRows_filter_eq t1 (upNorm m2) _ _ ⟨rfl, rfl⟩ hnodup1
  · rw [ht2, upsertRows_filter_ne t1 (upNorm m2) _ _ ⟨rfl, rfl⟩, ht1,
      upsertRows_filter_ne csv (upNorm m1) _ _ hkey1]

/-- Witness for C5: two upserts with key `(5102, *)` over a one-row store
with a different key leave exactly one `(5102, *)` row holding the second
record, and the other row untouched. -/
theorem claim_C5_witness :
    ([⟨"6108", "*", "D0", "C0", "J0", "0.8"⟩, ⟨"5102", "*", "D2", "C2", "J2", "0.9"⟩] :
        List MappingRow).filter
      (fun r => r.cfop == "5102" && r.regime == "*") = [⟨"5102", "*", "D2", "C2", "J2", "0.9"⟩]
    ∧ ([⟨"6108", "*", "D0", "C0", "J0", "0.8"⟩, ⟨"5102", "*", "D2", "C2", "J2", "0.9"⟩] :
        List MappingRow).filter
      (fun r => !(r.cfop == "5102" && r.regime == "*")) =
      ([⟨"6108", "*", "D0", "C0", "J0", "0.8"⟩] : List MappingRow).filter
        (fun r => !(r.cfop == "5102" && r.regime == "*")) := by
  have h := claim_C5 [⟨"6108", "*", "D0", "C0", "J0", "0.8"⟩]
    ⟨"5102", "*", "D1", "C1", "J1", "0.6"⟩ ⟨"5102", "*", "D2", "C2", "J2", "0.9"⟩
    (by intro r hr; simp only [List.mem_cons, List.not_mem_nil, or_false] at hr; subst hr; decide)
    (by simp [rowKey])
    (by decide) (by decide) (by decide) (by decide)
    [⟨"6108", "*", "D0", "C0", "J0", "0.8"⟩, ⟨"5102", "*", "D1", "C1", "J1", "0.6"⟩]
    [⟨"6108", "*", "D0", "C0", "J0", "0.8"⟩, ⟨"5102", "*", "D2", "C2", "J2", "0.9"⟩]
    rfl rfl
  exact h

/-! ## Review resolution (`src/workflow/nodes.py`) -/

/-- The `human_review_input` record the node reads
(`state.get("human_review_input")`): the six keys of
`REQUIRED_MAP_FIELDS`; a missing key is `none`, values are strings. -/
structure HumanReviewInput where
  cfop : Option String
  regime : Option String
  conta_debito : Option String
  conta_credito : Option String
  justificativa_base : Option String
  confianca : Option String
  deriving DecidableEq, Repr

/-- The empty dictionary `{}` (`state.get("human_review_input", {}) or {}`). -/
def emptyHRInput : HumanReviewInput := ⟨none, none, none, none, none, none⟩

/-- `hr.get(k)` for the six required field names. -/
def hrGet (hr : HumanReviewInput) (k : String) : Option String :=
  if k = "cfop" then hr.cfop
  else if k = "regime" then hr.regime
  else if k = "conta_debito" then hr.conta_debito
  else if k = "conta_credito" then hr.conta_credito
  else if k = "justificativa_base" then hr.justificativa_base
  else if k = "confianca" then hr.confianca
  else none

/-- `REQUIRED_MAP_FIELDS` (classificador_contabil_agent.py line 19). -/
def REQUIRED_MAP_FIELDS : List String :=
  ["cfop", "regime", "conta_debito", "conta_credito", "justificativa_base", "confianca"]

/-- CFOP injection (nodes.py lines 93-99): if the payload validates and the
human did not supply a truthy `cfop`, fill it from the payload. -/
def injectCfop (hr : HumanReviewInput) (payload : Option NFePayload) : HumanReviewInput :=
  match payload with
  | none => hr
  | some p => if optTruthy hr.cfop then hr else { hr with cfop := some p.cfop }

/-- The missing-field list of nodes.py line 102, in field order. -/
def missingFields (hr : HumanReviewInput) : List String :=
  REQUIRED_MAP_FIELDS.filter (fun k => !optTruthy (hrGet hr k))

/-- The mapping dictionary the node builds twice, identically, for
`upsert_cfop_mapping` and `classificacao_from_human` (nodes.py lines
129-136 and 145-152), given the validated `cfop` and the parsed
confidence `conf` (whose `str(conf)` is `pyStrOfFloat conf`). -/
def nodeMapping (hr : HumanReviewInput) (cfop : String) (conf : ℚ) : MappingRow where
  cfop := cfop
  regime :=
    if pyLower (pyStrip (hr.regime.getD "*")) = "" then "*"
    else pyLower (pyStrip (hr.regime.getD "*"))
  conta_debito := pyStrip (hr.conta_debito.getD "")
  conta_credito := pyStrip (hr.conta_credito.getD "")
  justificativa_base := pyStrip (hr.justificativa_base.getD "")
  confianca := pyStrOfFloat conf

/-- The slice of the workflow state dictionary that `human_review_node`
reads and writes. -/
structure WorkflowState where
  payload : Option NFePayload
  classificacao : Option ClassificacaoContabil
  classificacao_ok : Bool
  classificacao_needs_review : Bool
  classificacao_review_reason : Option String
  human_review_pending : Bool
  human_review_applied : Bool
  human_review_input : Option HumanReviewInput
  error : Option String
  deriving DecidableEq, Repr

/-- `human_review_node` (nodes.py lines 76-166) acting on the state slice
and on the persisted mapping table (the CSV file is the second component).
The error message of the confidence check elides the quotes CPython prints
around the field name. -/
def human_review_node (s : WorkflowState) (csv : List MappingRow) :
    WorkflowState × List MappingRow :=
  if ¬ s.classificacao_needs_review then
    ({ s with human_review_pending := false }, csv)
  else if missingFields (injectCfop (s.human_review_input.getD emptyHRInput) s.payload) ≠ [] then
    ({ s with
        human_review_pending := true
        human_review_applied := false
        error := some ("Aguardando revisão humana. Campos faltantes: " ++
          String.intercalate ", "
            (missingFields (injectCfop (s.human_review_input.getD emptyHRInput) s.payload))) },
      csv)
  else if ¬ ((pyStrip ((injectCfop (s.human_review_input.getD emptyHRInput) s.payload).cfop.getD "")).length = 4
      ∧ pyIsDigit (pyStrip ((injectCfop (s.human_review_input.getD emptyHRInput) s.payload).cfop.getD "")) = true) then
    ({ s with
        human_review_pending := true
        human_review_applied := false
        error := some "CFOP inválido (espera 4 dígitos)." }, csv)
  else
    match pyFloat? ((injectCfop (s.human_review_input.getD emptyHRInput) s.payload).confianca.getD "") with
    | none =>
        ({ s with
            human_review_pending := true
            human_review_applied := false
            error := some "Campo confianca inválido (0.0 a 1.0)." }, csv)
    | some conf =>
        if ¬ (0 ≤ conf ∧ conf ≤ 1) then
          ({ s with
              human_review_pending := true
              human_review_applied := false
              error := some "Campo confianca inválido (0.0 a 1.0)." }, csv)
        else
          match upsert_cfop_mapping csv
              (nodeMapping (injectCfop (s.human_review_input.getD emptyHRInput) s.payload)
                (pyStrip ((injectCfop (s.human_review_input.getD emptyHRInput) s.payload).cfop.getD ""))
                conf) with
          | .error e =>
              ({ s with
                  human_review_pending := true
                  human_review_applied := false
                  error := some ("Falha ao atualizar CSV: " ++ e) }, csv)
          | .ok csv2 =>
              match s.payload with
              | none =>
                  ({ s with
                      human_review_pending := true
                      human_review_applied := false
                      error := some "Falha ao aplicar classificação humana: payload inválido" },
                    csv2)
              | some p =>
                  match classificacao_from_human p
                      (nodeMapping (injectCfop (s.human_review_input.getD emptyHRInput) s.payload)
                        (pyStrip ((injectCfop (s.human_review_input.getD emptyHRInput) s.payload).cfop.getD ""))
                        conf) with
                  | .error e =>
                      ({ s with
                          human_review_pending := true
                          human_review_applied := false
                          error := some ("Falha ao aplicar classificação humana: " ++ e) }, csv2)
                  | .ok fc =>
                      ({ s with
                          classificacao_ok := true
                          classificacao := some fc
                          classificacao_needs_review := false
                          classificacao_review_reason := none
                          human_review_pending := false
                          human_review_applied := true }, csv2)

/-- Error outcomes of `human_review_node` preserve the pending-review
state: pending stays `true`, the prior classification is untouched, a
descriptive error is set, and the persisted table is unchanged. -/
def reviewHalted (s : WorkflowState) (csv : List MappingRow)
    (res : WorkflowState × List MappingRow) : Prop :=
  res.1.human_review_pending = true ∧ res.1.human_review_applied = false ∧
  res.1.classificacao = s.classificacao ∧ res.1.error.isSome = true ∧ res.2 = csv

/-- Successful evaluation of `classificacao_from_human` when the row's
confidence parses and its CFOP has length 4. -/
theorem classificacao_from_human_ok (p : NFePayload) (m : MappingRow) (conf : ℚ)
    (hc : pyFloat? m.confianca = some conf) (hlen : m.cfop.length = 4) :
    classificacao_from_human p m =
      .ok { cfop := m.cfop
            natureza_operacao := _natureza p.emitente.uf p.destinatario.uf
            conta_debito := m.conta_debito
            conta_credito := m.conta_credito
            justificativa := justifText m.justificativa_base
              (_natureza p.emitente.uf p.destinatario.uf) p.valor_total
            ncm_itens := p.itens.map (fun it => it.ncm)
            confianca := conf
            needs_human_review := false
            review_reason :=
              some "Mapeamento informado por revisão humana aplicado e persistido no CSV."
            rule_version := "v0.4" } := by
  unfold classificacao_from_human
  rw [hc]
  exact mkClassificacaoContabil_ok _ _ _ _ _ _ _ _ _ hlen

/-- Evaluation of the review node on the fully successful path. -/
theorem human_review_node_success (s : WorkflowState) (csv : List MappingRow) (p : NFePayload)
    (conf : ℚ) (tbl : List MappingRow) (fc : ClassificacaoContabil)
    (h0 : s.classificacao_needs_review = true)
    (h7 : s.payload = some p)
    (h1 : missingFields (injectCfop (s.human_review_input.getD emptyHRInput) (some p)) = [])
    (h2 : (pyStrip ((injectCfop (s.human_review_input.getD emptyHRInput) (some p)).cfop.getD "")).length = 4)
    (h3 : pyIsDigit (pyStrip ((injectCfop (s.human_review_input.getD emptyHRInput) (some p)).cfop.getD "")) = true)
    (h4 : pyFloat? ((injectCfop (s.human_review_input.getD emptyHRInput) (some p)).confianca.getD "")
        = some conf)
    (h5l : 0 ≤ conf) (h5r : conf ≤ 1)
    (h6 : upsert_cfop_mapping csv
        (nodeMapping (injectCfop (s.human_review_input.getD emptyHRInput) (some p))
          (pyStrip ((injectCfop (s.human_review_input.getD emptyHRInput) (some p)).cfop.getD ""))
          conf) = .ok tbl)
    (h8 : classificacao_from_human p
        (nodeMapping (injectCfop (s.human_review_input.getD emptyHRInput) (some p))
          (pyStrip ((injectCfop (s.human_review_input.getD emptyHRInput) (some p)).cfop.getD ""))
          conf) = .ok fc) :
    human_review_node s csv =
      ({ s with
          classificacao_ok := true
          classificacao := some fc
          classificacao_needs_review := false
          classificacao_review_reason := none
          human_review_pending := false
          human_review_applied := true }, tbl) := by
  unfold human_review_node
  rw [h7]
  simp [h0, h1, h2, h3, h4, h5l, h5r, h6, h8]

/-- Claim C8: review resolution is atomic on error and clearing on
success.  With a pending review and a validating payload: a missing
required field, a non-4-digit CFOP, an unparseable or out-of-range
confidence, or a failing store upsert each leave the pending state intact
(pending stays true, prior classification unchanged, descriptive error,
table unchanged); when every validation and the upsert succeed, the final
classification takes the human-supplied accounts and confidence unchanged
and clears `needs_human_review`. -/
theorem claim_C8 (s : WorkflowState) (csv : List MappingRow) (p : NFePayload)
    (hr : HumanReviewInput) (cfop : String)
    (hneed : s.classificacao_needs_review = true) (hp : s.payload = some p)
    (hhr : hr = injectCfop (s.human_review_input.getD emptyHRInput) s.payload)
    (hcf : cfop = pyStrip (hr.cfop.getD "")) :
    (missingFields hr ≠ [] → reviewHalted s csv (human_review_node s csv))
    ∧ (missingFields hr = [] → ¬ (cfop.length = 4 ∧ pyIsDigit cfop = true) →
        reviewHalted s csv (human_review_node s csv))
    ∧ (missingFields hr = [] → (cfop.length = 4 ∧ pyIsDigit cfop = true) →
        pyFloat? (hr.confianca.getD "") = none →
        reviewHalted s csv (human_review_node s csv))
    ∧ (∀ conf, missingFields hr = [] → (cfop.length = 4 ∧ pyIsDigit cfop = true) →
        pyFloat? (hr.confianca.getD "") = some conf → ¬ (0 ≤ conf ∧ conf ≤ 1) →
        reviewHalted s csv (human_review_node s csv))
    ∧ (∀ conf e, missingFields hr = [] → (cfop.length = 4 ∧ pyIsDigit cfop = true) →
        pyFloat? (hr.confianca.getD "") = some conf → (0 ≤ conf ∧ conf ≤ 1) →
        upsert_cfop_mapping csv (nodeMapping hr cfop conf) = .error e →
        reviewHalted s csv (human_review_node s csv))
    ∧ (∀ conf tbl, missingFields hr = [] → (cfop.length = 4 ∧ pyIsDigit cfop = true) →
        pyFloat? (hr.confianca.getD "") = some conf → (0 ≤ conf ∧ conf ≤ 1) →
        upsert_cfop_mapping csv (nodeMapping hr cfop conf) = .ok tbl →
        ∃ fc, human_review_node s csv =
            ({ s with
                classificacao_ok := true
                classificacao := some fc
                classificacao_needs_review := false
                classificacao_review_reason := none
                human_review_pending := false
                human_review_applied := true }, tbl)
          ∧ fc.needs_human_review = false ∧ fc.cfop = cfop
          ∧ fc.conta_debito = pyStrip (hr.conta_debito.getD "")
          ∧ fc.conta_credito = pyStrip (hr.conta_credito.getD "")
          ∧ fc.confianca = conf) := by
  have hneed' : ¬ ¬ s.classificacao_needs_review = true := by rw [hneed]; exact not_not_intro rfl
  refine ⟨?_, ?_, ?_, ?_, ?_, ?_⟩
  · intro hmiss
    unfold human_review_node
    rw [← hhr, if_neg hneed', if_pos hmiss]
    exact ⟨rfl, rfl, rfl, rfl, rfl⟩
  · intro hmiss hbad
    unfold human_review_node
    rw [← hhr, ← hcf, if_neg hneed', if_neg (not_not_intro hmiss), if_pos hbad]
    exact ⟨rfl, rfl, rfl, rfl, rfl⟩
  · intro hmiss hok hparse
    unfold human_review_node
    rw [← hhr, ← hcf, if_neg hneed', if_neg (not_not_intro hmiss),
      if_neg (not_not_intro hok), hparse]
    exact ⟨rfl, rfl, rfl, rfl, rfl⟩
  · intro conf hmiss hok hparse hrange
    unfold human_review_node
    rw [← hhr, ← hcf, if_neg hneed', if_neg (not_not_intro hmiss),
      if_neg (not_not_intro hok), hparse]
    show reviewHalted s csv (if ¬ (0 ≤ conf ∧ conf ≤ 1) then _ else _)
    rw [if_pos hrange]
    exact ⟨rfl, rfl, rfl, rfl, rfl⟩
  · intro conf e hmiss hok hparse hrange hup
    unfold human_review_node
    rw [← hhr, ← hcf, if_neg hneed', if_neg (not_not_intro hmiss),
      if_neg (not_not_intro hok), hparse]
    show reviewHalted s csv (if ¬ (0 ≤ conf ∧ conf ≤ 1) then _ else _)
    rw [if_neg (not_not_intro hrange), hup]
    exact ⟨rfl, rfl, rfl, rfl, rfl⟩
  · intro conf tbl hmiss hok hparse hrange hup
    subst hcf
    subst hhr
    rw [hp] at hmiss hok hparse hup ⊢
    have hrt : pyFloat? (pyStrOfFloat conf) = some conf :=
      pyFloat_roundTrip _ conf hparse hrange.1
    have hfrom := classificacao_from_human_ok p
      (nodeMapping (injectCfop (s.human_review_input.getD emptyHRInput) (some p))
        (pyStrip ((injectCfop (s.human_review_input.getD emptyHRInput) (some p)).cfop.getD ""))
        conf) conf hrt hok.1
    have hmain := human_review_node_success s csv p conf tbl _ hneed hp hmiss hok.1 hok.2
      hparse hrange.1 hrange.2 hup hfrom
    rw [hp] at hmain
    exact ⟨_, hmain, rfl, rfl, rfl, rfl, rfl⟩

/-- The pending state used by the C8 witness. -/
def c8state : WorkflowState where
  payload := some exPayload
  classificacao := none
  classificacao_ok := true
  classificacao_needs_review := true
  classificacao_review_reason := some "fallback"
  human_review_pending := true
  human_review_applied := false
  human_review_input := some ⟨none, some "simples", some "Clientes",
    some "Receita de Vendas", some "Venda", some "0.9"⟩
  error := none

/-- Witness for C8: a complete human correction (CFOP injected from the
payload, confidence `0.9`) is persisted and produces a final
classification with the human values and `needs_human_review = false`;
dropping the debit account instead preserves the pending state. -/
theorem claim_C8_witness :
    (∃ fc, human_review_node c8state [] =
        ({ c8state with
            classificacao_ok := true
            classificacao := some fc
            classificacao_needs_review := false
            classificacao_review_reason := none
            human_review_pending := false
            human_review_applied := true },
          [⟨"5102", "simples", "Clientes", "Receita de Vendas", "Venda", "0.9000000000"⟩])
      ∧ fc.needs_human_review = false ∧ fc.cfop = "5102"
      ∧ fc.conta_debito = pyStrip ((some "Clientes").getD "")
      ∧ fc.conta_credito = pyStrip ((some "Receita de Vendas").getD "")
      ∧ fc.confianca = mkRat 9 10)
    ∧ reviewHalted { c8state with human_review_input := some ⟨none, some "simples", none,
        some "Receita de Vendas", some "Venda", some "0.9"⟩ } []
      (human_review_node { c8state with human_review_input := some ⟨none, some "simples", none,
        some "Receita de Vendas", some "Venda", some "0.9"⟩ } []) := by
  constructor
  · have h := (claim_C8 c8state [] exPayload
      ⟨some "5102", some "simples", some "Clientes", some "Receita de Vendas",
        some "Venda", some "0.9"⟩ "5102" rfl rfl (by decide) (by decide)).2.2.2.2.2
      (mkRat 9 10)
      [⟨"5102", "simples", "Clientes", "Receita de Vendas", "Venda", "0.9000000000"⟩]
      (by decide) (by decide) (by decide) (by decide) rfl
    exact h
  · exact (claim_C8 { c8state with human_review_input := some ⟨none, some "simples", none,
        some "Receita de Vendas", some "Venda", some "0.9"⟩ } [] exPayload
      ⟨some "5102", some "simples", none, some "Receita de Vendas", some "Venda", some "0.9"⟩
      "5102" rfl rfl (by decide) (by decide)).1 (by decide)

end NFe
